import Mathlib

/-!
Verification of the leaderboard server of web-minigame-factory.

The definitions below are a shallow embedding of the server module that
implements the global leaderboard service (sanitizers, the KST season
clock, and the `LeaderboardStore` class with its sync, season-rollover,
ranking-cache and snapshot operations).

Modelling conventions, used consistently below:
* JavaScript values reaching the sanitizers are modelled by `JSVal`;
  JavaScript numbers by `JSNum` (a finite integer, or NaN, or an
  infinity) -- every number this program stores, compares or returns is
  integral, so the finite carrier is restricted to the integers and the
  floor calls of the source act as the identity on it.
* `Number(string)` is modelled on the decimal-integer subset of the JS
  numeric grammar (optional sign, digits, surrounding whitespace); all
  other strings coerce to NaN.  The claims under verification only use
  such strings.
* `Date` arithmetic: for a timestamp `t` (ms since the epoch),
  `Date.UTC(getUTCFullYear t, getUTCMonth t, getUTCDate t)` is the start
  of the UTC day containing `t`, i.e. `(t / DAY_MS) * DAY_MS` with
  Euclidean (= flooring, the divisor is positive) division, and
  `getUTCDay t = (t / DAY_MS + 4) % 7` because 1970-01-01 was a Thursday.
* `String.prototype.slice(0, n)` and `trim()` are modelled per character;
  the identifiers and names this program manipulates are ASCII.
* `String.prototype.localeCompare(b, "en")` is modelled as code-point
  comparison; over the sanitized id alphabet this is a total order with
  the same zero set (two ids collate equal only when they are equal).
* The mutable `this.state` of the store is threaded explicitly; the side
  effects `schedulePersist` and `notifySubscribers` are recorded in an
  `Effects` counter returned by each operation.
-/

/-- A JavaScript number: a finite value, NaN, or an infinity.  Finite values
are carried as integers: every number this program stores or compares is
integral (the sanitizers floor their inputs on entry), and on the integers
`Math.floor` is the identity. -/
inductive JSNum where
  | rat (q : Int)
  | nan
  | inf
  | ninf
deriving DecidableEq, Repr

/-- A JavaScript value as it can reach the leaderboard code from parsed JSON
or from a caller: null, undefined, a boolean, a number, a string, an object
(an insertion-ordered association list of fields) or an array. -/
inductive JSVal where
  | null
  | undef
  | bool (b : Bool)
  | num (n : JSNum)
  | str (s : String)
  | obj (fields : List (String × JSVal))
  | arr (elems : List JSVal)

namespace JSNum

/-- Truthiness of a number: 0 and NaN are falsy. -/
def truthy : JSNum → Bool
  | rat q => decide (q ≠ 0)
  | nan => false
  | _ => true

/-- Model of `Number.isFinite`. -/
def isFinite : JSNum → Bool
  | rat _ => true
  | _ => false

/-- Model of `Math.floor` on a JS number: NaN and infinities pass through, and the
finite carrier is already integral. -/
def floor : JSNum → JSNum
  | rat q => rat q
  | n => n

/-- Binary `Math.max`: NaN-propagating maximum. -/
def maxNum : JSNum → JSNum → JSNum
  | nan, _ => nan
  | _, nan => nan
  | inf, _ => inf
  | _, inf => inf
  | ninf, b => b
  | a, ninf => a
  | rat a, rat b => rat (max a b)

/-- Binary `Math.min`: NaN-propagating minimum. -/
def minNum : JSNum → JSNum → JSNum
  | nan, _ => nan
  | _, nan => nan
  | ninf, _ => ninf
  | _, ninf => ninf
  | inf, b => b
  | a, inf => a
  | rat a, rat b => rat (min a b)

/-- JS addition on numbers. -/
def add : JSNum → JSNum → JSNum
  | nan, _ => nan
  | _, nan => nan
  | inf, ninf => nan
  | ninf, inf => nan
  | inf, _ => inf
  | _, inf => inf
  | ninf, _ => ninf
  | _, ninf => ninf
  | rat a, rat b => rat (a + b)

/-- Strict equality `===` on numbers (NaN is not equal to anything). -/
def seq : JSNum → JSNum → Bool
  | rat a, rat b => decide (a = b)
  | inf, inf => true
  | ninf, ninf => true
  | _, _ => false

end JSNum

/-- Parse the digit tail of a decimal integer literal (accumulator form). -/
def parseDigits : List Char → Nat → Option Nat
  | [], acc => some acc
  | c :: rest, acc =>
      if c.isDigit then parseDigits rest (acc * 10 + (c.toNat - 48)) else none

/-- Parse an optionally signed decimal integer literal. -/
def parseDecInt : List Char → Option Int
  | [] => none
  | c :: rest =>
      if c = '-' then
        match rest with
        | [] => none
        | _ => (parseDigits rest 0).map (fun n => -(n : Int))
      else if c = '+' then
        match rest with
        | [] => none
        | _ => (parseDigits rest 0).map (fun n => (n : Int))
      else (parseDigits (c :: rest) 0).map (fun n => (n : Int))

/-- JS whitespace for `trim` purposes (ASCII fragment). -/
def jsWs (c : Char) : Bool :=
  c = ' ' || c = '\t' || c = '\n' || c = '\r'

/-- Model of `String.prototype.trim`, modelled per character. -/
def jsTrim (s : String) : String :=
  String.mk (((s.data.dropWhile jsWs).reverse.dropWhile jsWs).reverse)

/-- Model of `String.prototype.slice(0, n)`, modelled per character. -/
def jsSlice (s : String) (n : Nat) : String :=
  String.mk (s.data.take n)

/-- Model of `Number(string)`: empty or all-whitespace strings give 0; decimal integer
literals parse; every other string is NaN in this model. -/
def parseJsNumber (s : String) : JSNum :=
  let t := jsTrim s
  if t = "" then JSNum.rat 0
  else
    match parseDecInt t.data with
    | some n => JSNum.rat n
    | none => JSNum.nan

namespace JSVal

/-- Model of `Number(value)` coercion.  Objects coerce through `toString` to NaN; an
empty array coerces to 0 and a singleton array to the number of its element. -/
def toNumber : JSVal → JSNum
  | null => JSNum.rat 0
  | undef => JSNum.nan
  | bool b => if b then JSNum.rat 1 else JSNum.rat 0
  | num n => n
  | str s => parseJsNumber s
  | obj _ => JSNum.nan
  | arr [] => JSNum.rat 0
  | arr [v] => toNumber v
  | arr _ => JSNum.nan

/-- Truthiness of a JS value. -/
def truthy : JSVal → Bool
  | null => false
  | undef => false
  | bool b => b
  | num n => n.truthy
  | str s => decide (s ≠ "")
  | obj _ => true
  | arr _ => true

end JSVal

/-- Association-list lookup (a JS object field read, first binding wins;
objects built by this program never carry duplicate keys). -/
def aGet {α : Type} : List (String × α) → String → Option α
  | [], _ => none
  | (k, v) :: t, key => if k = key then some v else aGet t key

/-- Association-list update: a JS property assignment keeps the position of an
existing key and appends a fresh key at the end. -/
def aSet {α : Type} : List (String × α) → String → α → List (String × α)
  | [], key, v => [(key, v)]
  | (k, w) :: t, key, v =>
      if k = key then (key, v) :: t else (k, w) :: aSet t key v

/-- Property read `value?.[name]` on a JS value: undefined unless the value is
an object with that named field (arrays have no named data properties relevant
here). -/
def getProp (v : JSVal) (k : String) : JSVal :=
  match v with
  | JSVal.obj f => (aGet f k).getD JSVal.undef
  | _ => JSVal.undef

/-- Model of `Object.entries` of a value known to satisfy `typeof v === "object"` and
be truthy: object fields in order, or index keys for an array; everything else
contributes nothing (the call sites guard with `v && typeof v === "object"`). -/
def jsObjEntries (v : JSVal) : List (String × JSVal) :=
  match v with
  | JSVal.obj fields => fields
  | JSVal.arr elems => elems.enum.map (fun p => (toString p.1, p.2))
  | _ => []

/-! ### The sanitizers (`toSafeScore`, `toSafeTimestamp`, `clampTopLimit`,
`sanitizeString`, `sanitizeId`) -/

/-- Model of `toSafeScore`: coerce to a number; non-finite gives 0, otherwise
`Math.max(0, Math.floor(parsed))`. -/
def toSafeScore (value : JSVal) : Int :=
  match value.toNumber with
  | JSNum.rat q => max 0 q
  | _ => 0

/-- Model of `toSafeTimestamp`: coerce to a number; non-finite gives the fallback,
otherwise `Math.max(0, Math.floor(parsed))`. -/
def toSafeTimestamp (value : JSVal) (fallback : Int) : Int :=
  match value.toNumber with
  | JSNum.rat q => max 0 q
  | _ => fallback

/-- Model of `clampTopLimit`: coerce to a number; non-finite gives 10, otherwise
`Math.max(1, Math.min(50, Math.floor(parsed)))`. -/
def clampTopLimit (limitCount : JSVal) : Int :=
  match limitCount.toNumber with
  | JSNum.rat q => max 1 (min 50 q)
  | _ => 10

/-- Model of `sanitizeString(value, fallback, maxLength)`: non-strings and strings that
trim to empty give the fallback; otherwise the trimmed string cut to
`maxLength`. -/
def sanitizeString (value : JSVal) (fallback : String) (maxLength : Nat) : String :=
  let raw := match value with
    | JSVal.str s => jsTrim s
    | _ => ""
  if raw = "" then fallback else jsSlice raw maxLength

/-- The id alphabet `[a-zA-Z0-9_\-:.]`. -/
def isIdChar (c : Char) : Bool :=
  ('a' ≤ c && c ≤ 'z') || ('A' ≤ c && c ≤ 'Z') || ('0' ≤ c && c ≤ '9') ||
    c = '_' || c = '-' || c = ':' || c = '.'

/-- Model of `sanitizeId(value, fallback)`: sanitize as a string with bound 96, then
strip every character outside the id alphabet and cut to 96 again; an empty
base gives the empty string. -/
def sanitizeId (value : JSVal) (fallback : String) : String :=
  let base := sanitizeString value fallback 96
  if base = "" then ""
  else jsSlice (String.mk (base.data.filter isIdChar)) 96

/-! ### The season clock (`computeKstSeasonWindow`) -/

/-- Model of `HOUR_MS` from the source. -/
def HOUR_MS : Int := 60 * 60 * 1000

/-- Model of `DAY_MS` from the source. -/
def DAY_MS : Int := 24 * HOUR_MS

/-- Model of `WEEK_MS` from the source. -/
def WEEK_MS : Int := 7 * DAY_MS

/-- Model of `KST_OFFSET_MS` from the source (UTC+9). -/
def KST_OFFSET_MS : Int := 9 * HOUR_MS

/-- Model of `KST_RESET_HOUR` from the source. -/
def KST_RESET_HOUR : Int := 9

/-- Proleptic-Gregorian civil date (year, month, day) of a day count since
1970-01-01, as computed by the JS `Date` getters. -/
def civilFromDays (z0 : Int) : Int × Int × Int :=
  let z := z0 + 719468
  let era := z / 146097
  let doe := z - era * 146097
  let yoe := (doe - doe / 1460 + doe / 36524 - doe / 146096) / 365
  let y := yoe + era * 400
  let doy := doe - (365 * yoe + yoe / 4 - yoe / 100)
  let mp := (5 * doy + 2) / 153
  let d := doy - (153 * mp + 2) / 5 + 1
  let m := mp + (if mp < 10 then 3 else (-9 : Int))
  (y + (if m ≤ 2 then 1 else 0), m, d)

/-- Left-pad the decimal form of a nonnegative integer with zeros. -/
def padTo (w : Nat) (n : Int) : String :=
  let s := toString n
  String.mk (List.replicate (w - s.length) '0') ++ s

/-- The first ten characters of `new Date(ms).toISOString()`: the ISO calendar
date of the UTC day containing `ms` (extended 6-digit years as in JS). -/
def isoDateSlice10 (ms : Int) : String :=
  let ymd := civilFromDays (ms / DAY_MS)
  let y := ymd.1
  let ys := if 0 ≤ y ∧ y ≤ 9999 then padTo 4 y
    else (if y < 0 then "-" else "+") ++ padTo 6 (if y < 0 then -y else y)
  jsSlice (ys ++ "-" ++ padTo 2 ymd.2.1 ++ "-" ++ padTo 2 ymd.2.2) 10

/-- A season window record. -/
structure Season where
  id : String
  startAt : Int
  endAt : Int
  timezone : String
  resetRule : String
deriving DecidableEq, Repr

/-- The `seasonStartKstMs` computed by `computeKstSeasonWindow`: the shifted
instant floored to its UTC day, moved back to the Monday of its week, set to
the 09:00 reset hour, and pushed one week back when that boundary is still
ahead of the shifted instant. -/
def seasonStartKstOf (nowMs : Int) : Int :=
  let kstNowMs := nowMs + KST_OFFSET_MS
  let dayIndex := kstNowMs / DAY_MS
  let startOfTodayKstMs := dayIndex * DAY_MS
  let dayOfWeek := (dayIndex + 4) % 7
  let daysSinceMonday := (dayOfWeek + 6) % 7
  let base := startOfTodayKstMs - daysSinceMonday * DAY_MS + KST_RESET_HOUR * HOUR_MS
  if kstNowMs < base then base - WEEK_MS else base

/-- Model of `computeKstSeasonWindow(nowMs)`: shift into UTC+9, find the most recent
Monday 09:00 boundary at or before the shifted instant, and return the
one-week window it opens, converted back to UTC timestamps. -/
def computeKstSeasonWindow (nowMs : Int) : Season :=
  let seasonStartKstMs := seasonStartKstOf nowMs
  let seasonEndKstMs := seasonStartKstMs + WEEK_MS
  { id := "kst-week-" ++ isoDateSlice10 seasonStartKstMs
    startAt := seasonStartKstMs - KST_OFFSET_MS
    endAt := seasonEndKstMs - KST_OFFSET_MS
    timezone := "Asia/Seoul"
    resetRule := "weekly Monday 09:00 KST" }

/-! ### The store state and its operations (`LeaderboardStore`) -/

/-- A player record as stored in `state.players`.  Scores are integers
(results of `toSafeScore`); `gameScores` is an insertion-ordered object. -/
structure Player where
  uid : String
  nickname : String
  avatar : String
  updatedAt : Int
  gameScores : List (String × Int)
  overallScore : Int
deriving DecidableEq, Repr

/-- The root store state.  `revision` is a JS number because `normalizeState`
can produce a non-finite value for it from hostile persisted content. -/
structure StoreState where
  version : Int
  revision : JSNum
  updatedAt : Int
  season : Season
  players : List (String × Player)
deriving DecidableEq, Repr

/-- Model of `createEmptyState(nowMs)`. -/
def createEmptyState (nowMs : Int) : StoreState :=
  { version := 1
    revision := JSNum.rat 1
    updatedAt := nowMs
    season := computeKstSeasonWindow nowMs
    players := [] }

/-- A ranking cache entry before rank assignment. -/
structure SrcEntry where
  uid : String
  nickname : String
  avatar : String
  score : Int
  updatedAt : Int
deriving DecidableEq, Repr

/-- A ranking cache entry after rank assignment. -/
structure RankedEntry where
  rank : Int
  uid : String
  nickname : String
  avatar : String
  score : Int
deriving DecidableEq, Repr

/-- A ranking cache: the revision it was built at and the ranked entries.
The reverse `rankByPlayer` index of the source is a `Map` built from the
entries keyed by uid; it is recovered here by `rankByPlayer` below. -/
structure Cache where
  revision : JSNum
  entries : List RankedEntry
deriving DecidableEq, Repr

/-- Model of `Map.prototype.get` on the reverse index built from a list of entries
keyed by uid (for duplicate keys the last insertion wins, as in a JS Map). -/
def rankByPlayer (entries : List RankedEntry) (uid : String) : Option RankedEntry :=
  entries.foldl (fun acc e => if e.uid = uid then some e else acc) none

/-- The store object: the state plus the two ranking caches.  The debounce
timer and subscriber set are modelled by the `Effects` counters that each
operation returns. -/
structure Store where
  state : StoreState
  overallCache : Option Cache
  gameCacheMap : List (String × Cache)
deriving DecidableEq, Repr

/-- Counts of `schedulePersist` and `notifySubscribers` calls made by an
operation. -/
structure Effects where
  persists : Nat
  notifies : Nat
deriving DecidableEq, Repr

/-- No side effects. -/
def noEffects : Effects := ⟨0, 0⟩

/-- Model of `invalidateRankingCache()`. -/
def invalidateRankingCache (s : Store) : Store :=
  { s with overallCache := none, gameCacheMap := [] }

/-- The inner loop of `normalizeState` over a raw `gameScores` object:
sanitize each key, coerce each score, and keep only usable positive entries. -/
def normalizeGameScores : List (String × JSVal) → List (String × Int) →
    List (String × Int)
  | [], gs => gs
  | ge :: rest, gs =>
      let gameId := sanitizeId (JSVal.str ge.1) ""
      let score := toSafeScore ge.2
      if gameId = "" ∨ score ≤ 0 then normalizeGameScores rest gs
      else normalizeGameScores rest (aSet gs gameId score)

/-- One normalized player record, built by `normalizeState` from a raw
player value (already known to be a truthy object). -/
def normalizePlayer (nowMs : Int) (uid : String) (rawPlayer : JSVal) : Player :=
  let gameScores := normalizeGameScores (jsObjEntries (getProp rawPlayer "gameScores")) []
  { uid := uid
    nickname := sanitizeString (getProp rawPlayer "nickname") "Player" 32
    avatar := sanitizeString (getProp rawPlayer "avatar") "default" 32
    updatedAt := toSafeTimestamp (getProp rawPlayer "updatedAt") nowMs
    gameScores := gameScores
    overallScore := (gameScores.map (fun g => max 0 g.2)).sum }

/-- The outer loop of `normalizeState` over the raw `players` object:
sanitize each uid, skip unusable uids and non-object records, and store each
normalized player. -/
def normalizePlayers (nowMs : Int) : List (String × JSVal) →
    List (String × Player) → List (String × Player)
  | [], acc => acc
  | e :: rest, acc =>
      let uid := sanitizeId (JSVal.str e.1) ""
      if uid = "" then normalizePlayers nowMs rest acc
      else
        match e.2 with
        | JSVal.obj _ | JSVal.arr _ =>
            normalizePlayers nowMs rest (aSet acc uid (normalizePlayer nowMs uid e.2))
        | _ => normalizePlayers nowMs rest acc

/-- Model of `normalizeState(raw)`: rebuild a well-formed state from arbitrary parsed
JSON, sanitizing every field; `nowMs` stands for the `Date.now()` calls made
through `createEmptyState` and the `toSafeTimestamp` default fallback. -/
def normalizeState (nowMs : Int) (raw : JSVal) : StoreState :=
  let fallback := createEmptyState nowMs
  let normalizedPlayers := normalizePlayers nowMs (jsObjEntries (getProp raw "players")) []
  let seasonFields := match getProp raw "season" with
    | JSVal.obj f => f
    | _ => []
  { version := 1
    revision :=
      JSNum.maxNum (JSNum.rat 1) (JSNum.floor (JSVal.toNumber
        (if (getProp raw "revision").truthy then getProp raw "revision"
         else JSVal.num (JSNum.rat 1))))
    updatedAt := toSafeTimestamp (getProp raw "updatedAt") fallback.updatedAt
    season :=
      { id := match aGet seasonFields "id" with
          | some v => sanitizeString v fallback.season.id 64
          | none => sanitizeString (JSVal.str fallback.season.id) fallback.season.id 64
        startAt := match aGet seasonFields "startAt" with
          | some v => toSafeTimestamp v fallback.season.startAt
          | none => max 0 fallback.season.startAt
        endAt := match aGet seasonFields "endAt" with
          | some v => toSafeTimestamp v fallback.season.endAt
          | none => max 0 fallback.season.endAt
        timezone := "Asia/Seoul"
        resetRule := "weekly Monday 09:00 KST" }
    players := normalizedPlayers }

/-- Model of `ensureActiveSeason()`: recompute the window from the clock; on an id
mismatch install a fresh empty state with a bumped revision, drop the caches,
schedule persistence and notify.  Returns whether a reset occurred. -/
def ensureActiveSeason (nowMs : Int) (s : Store) : Bool × Store × Effects :=
  let latestSeason := computeKstSeasonWindow nowMs
  if s.state.season.id = latestSeason.id then (false, s, noEffects)
  else
    let st : StoreState :=
      { version := 1
        revision := JSNum.add
          (if s.state.revision.truthy then s.state.revision else JSNum.rat 1)
          (JSNum.rat 1)
        updatedAt := nowMs
        season := latestSeason
        players := [] }
    (true, invalidateRankingCache { s with state := st }, ⟨1, 1⟩)

/-- Model of `load(parsed)`: use the normalized parsed file when it was readable, a
fresh empty state otherwise, then ensure the season and drop the caches. -/
def load (nowMs : Int) (parsed : Option JSVal) : Store × Effects :=
  let st := match parsed with
    | some raw => normalizeState nowMs raw
    | none => createEmptyState nowMs
  let r := ensureActiveSeason nowMs { state := st, overallCache := none, gameCacheMap := [] }
  (invalidateRankingCache r.2.1, r.2.2)

/-- The payload of a `syncPlayer` call, before any sanitization. -/
structure SyncPayload where
  playerId : JSVal
  nickname : JSVal
  avatar : JSVal
  gameScores : JSVal

/-- The value returned by a successful `syncPlayer`. -/
structure SyncResult where
  playerId : String
  overallScore : Int
  hasMeaningfulChange : Bool
  season : Season
  revision : JSNum
deriving DecidableEq, Repr

/-- The error thrown by `syncPlayer` on an unusable player id. -/
structure JsError where
  message : String
  statusCode : Int
deriving DecidableEq, Repr

/-- The outcome of a `syncPlayer` call: the store after the call (the state
mutation of a season reset survives even when the call then throws), the
returned value or thrown error, and the side effects performed. -/
structure SyncOut where
  store : Store
  result : Except JsError SyncResult
  eff : Effects

/-- The score-merge loop of `syncPlayer`: walk the submitted entries, skip
unusable ids and non-positive scores, and raise each stored score to any
strictly larger submission, tracking whether anything changed. -/
def mergeGameScores : List (String × JSVal) → List (String × Int) → Bool →
    List (String × Int) × Bool
  | [], acc, changed => (acc, changed)
  | e :: rest, acc, changed =>
      let gameId := sanitizeId (JSVal.str e.1) ""
      let score := toSafeScore e.2
      if gameId = "" ∨ score ≤ 0 then mergeGameScores rest acc changed
      else if max 0 ((aGet acc gameId).getD 0) < score then
        mergeGameScores rest (aSet acc gameId score) true
      else mergeGameScores rest acc changed

/-- The record `syncPlayer` starts from: the stored player, or a fresh record
carrying the sanitized nickname and avatar. -/
def syncExisting (nowMs : Int) (p : SyncPayload) (s : Store) (uid : String) : Player :=
  (aGet s.state.players uid).getD
    { uid := uid
      nickname := sanitizeString p.nickname "Player" 32
      avatar := sanitizeString p.avatar "default" 32
      updatedAt := nowMs
      gameScores := []
      overallScore := 0 }

/-- The submitted score entries: the payload field when it is a truthy
object, nothing otherwise. -/
def syncSourceScores (p : SyncPayload) : List (String × JSVal) :=
  if p.gameScores.truthy then jsObjEntries p.gameScores else []

/-- The merged game scores of a sync call and the per-score change flag. -/
def syncMerged (nowMs : Int) (p : SyncPayload) (s : Store) (uid : String) :
    List (String × Int) × Bool :=
  mergeGameScores (syncSourceScores p) (syncExisting nowMs p s uid).gameScores false

/-- The recomputed overall score: the sum of the re-sanitized values of the
merged game scores. -/
def syncOverall (nowMs : Int) (p : SyncPayload) (s : Store) (uid : String) : Int :=
  ((syncMerged nowMs p s uid).1.map (fun g => max 0 g.2)).sum

/-- The `hasMeaningfulChange` flag: some score rose, or the nickname or
avatar changed, or the recomputed overall score differs. -/
def syncChanged (nowMs : Int) (p : SyncPayload) (s : Store) (uid : String) : Bool :=
  (syncMerged nowMs p s uid).2
    || decide ((syncExisting nowMs p s uid).nickname ≠ sanitizeString p.nickname "Player" 32)
    || decide ((syncExisting nowMs p s uid).avatar ≠ sanitizeString p.avatar "default" 32)
    || decide (syncOverall nowMs p s uid ≠ (syncExisting nowMs p s uid).overallScore)

/-- The record `syncPlayer` unconditionally writes back. -/
def syncNewRecord (nowMs : Int) (p : SyncPayload) (s : Store) (uid : String) : Player :=
  { uid := uid
    nickname := sanitizeString p.nickname "Player" 32
    avatar := sanitizeString p.avatar "default" 32
    updatedAt := nowMs
    gameScores := (syncMerged nowMs p s uid).1
    overallScore := syncOverall nowMs p s uid }

/-- The body of `syncPlayer` after `ensureActiveSeason`: fail with a
400-status error on an empty sanitized id, otherwise always rewrite the
player record, and only on a meaningful change bump the revision, drop the
caches, schedule persistence and notify. -/
def syncPlayerCore (nowMs : Int) (p : SyncPayload) (s : Store) : SyncOut :=
  let uid := sanitizeId p.playerId ""
  if uid = "" then
    { store := s
      result := Except.error { message := "invalid-player-id", statusCode := 400 }
      eff := noEffects }
  else
    let st1 := { s.state with players := aSet s.state.players uid (syncNewRecord nowMs p s uid) }
    if syncChanged nowMs p s uid then
      let st2 := { st1 with revision := JSNum.add st1.revision (JSNum.rat 1),
                            updatedAt := nowMs }
      { store := invalidateRankingCache { s with state := st2 }
        result := Except.ok
          { playerId := uid, overallScore := syncOverall nowMs p s uid
            hasMeaningfulChange := true, season := st2.season
            revision := st2.revision }
        eff := ⟨1, 1⟩ }
    else
      { store := { s with state := st1 }
        result := Except.ok
          { playerId := uid, overallScore := syncOverall nowMs p s uid
            hasMeaningfulChange := false, season := st1.season
            revision := st1.revision }
        eff := noEffects }

/-- Model of `syncPlayer({playerId, nickname, avatar, gameScores})` at wall-clock time
`nowMs`: ensure the season first (a season reset performed here survives even
when the call then throws), then run the sync body on the resulting state. -/
def syncPlayer (nowMs : Int) (p : SyncPayload) (s0 : Store) : SyncOut :=
  let ens := ensureActiveSeason nowMs s0
  let core := syncPlayerCore nowMs p ens.2.1
  { store := core.store
    result := core.result
    eff := ⟨core.eff.persists + ens.2.2.persists, core.eff.notifies + ens.2.2.notifies⟩ }

/-! ### The ranking comparator and the caches -/

/-- Code-point comparison of strings, the model of
`String(a).localeCompare(String(b), "en")` (sign only is ever used). -/
def localeCompareEn (a b : String) : Int :=
  let rec go : List Char → List Char → Int
    | [], [] => 0
    | [], _ :: _ => -1
    | _ :: _, [] => 1
    | c :: cs, d :: ds =>
        if c < d then -1 else if d < c then 1 else go cs ds
  go a.data b.data

/-- Model of `compareEntry(a, b)`: score descending, then `updatedAt` ascending, then
uid ascending. -/
def compareEntry (a b : SrcEntry) : Int :=
  if b.score ≠ a.score then b.score - a.score
  else if a.updatedAt ≠ b.updatedAt then a.updatedAt - b.updatedAt
  else localeCompareEn a.uid b.uid

/-- Insert into a comparator-sorted list (before the first element that does
not compare strictly smaller), preserving the relative order of ties. -/
def insertByCmp {α : Type} (cmp : α → α → Int) (x : α) : List α → List α
  | [] => [x]
  | y :: ys => if cmp x y ≤ 0 then x :: y :: ys else y :: insertByCmp cmp x ys

/-- Model of `Array.prototype.sort(cmp)` for a consistent comparator, modelled as a
stable insertion sort. -/
def sortByCmp {α : Type} (cmp : α → α → Int) (l : List α) : List α :=
  l.foldr (insertByCmp cmp) []

/-- Assign 1-based contiguous ranks to sorted entries. -/
def assignRanks (l : List SrcEntry) : List RankedEntry :=
  l.enum.map (fun p =>
    { rank := (p.1 : Int) + 1, uid := p.2.uid, nickname := p.2.nickname
      avatar := p.2.avatar, score := p.2.score })

/-- The cache-free overall ranking pipeline of `buildOverallCache`: source
entries from every player (overall score and timestamp re-sanitized), positive
scores only, sorted by `compareEntry`, ranked 1-based. -/
def overallEntries (st : StoreState) : List RankedEntry :=
  assignRanks (sortByCmp compareEntry
    ((st.players.map (fun e =>
      { uid := e.2.uid, nickname := e.2.nickname, avatar := e.2.avatar
        score := max 0 e.2.overallScore
        updatedAt := max 0 e.2.updatedAt : SrcEntry })).filter
      (fun e => 0 < e.score)))

/-- The cache-free per-game ranking pipeline of `buildGameCache`: like
`overallEntries` but scoring each player by the requested game (absent scores
read as 0 and are filtered out). -/
def gameEntries (st : StoreState) (gameId : String) : List RankedEntry :=
  assignRanks (sortByCmp compareEntry
    ((st.players.map (fun e =>
      { uid := e.2.uid, nickname := e.2.nickname, avatar := e.2.avatar
        score := max 0 ((aGet e.2.gameScores gameId).getD 0)
        updatedAt := max 0 e.2.updatedAt : SrcEntry })).filter
      (fun e => 0 < e.score)))

/-- Model of `buildOverallCache()`: reuse the cache when its revision strictly equals
the live revision, otherwise rebuild from the players map and store the
result. -/
def buildOverallCache (s : Store) : Cache × Store :=
  match s.overallCache with
  | some cached =>
      if JSNum.seq cached.revision s.state.revision then (cached, s)
      else
        let c : Cache := { revision := s.state.revision, entries := overallEntries s.state }
        (c, { s with overallCache := some c })
  | none =>
      let c : Cache := { revision := s.state.revision, entries := overallEntries s.state }
      (c, { s with overallCache := some c })

/-- Model of `buildGameCache(gameId)`: an empty-id request returns a fresh empty
uncached result; otherwise reuse the per-game cache at the live revision or
rebuild and store it. -/
def buildGameCache (gameId : String) (s : Store) : Cache × Store :=
  let normalizedGameId := sanitizeId (JSVal.str gameId) ""
  if normalizedGameId = "" then
    ({ revision := s.state.revision, entries := [] }, s)
  else
    match aGet s.gameCacheMap normalizedGameId with
    | some cached =>
        if JSNum.seq cached.revision s.state.revision then (cached, s)
        else
          let c : Cache := { revision := s.state.revision
                             entries := gameEntries s.state normalizedGameId }
          (c, { s with gameCacheMap := aSet s.gameCacheMap normalizedGameId c })
    | none =>
        let c : Cache := { revision := s.state.revision
                           entries := gameEntries s.state normalizedGameId }
        (c, { s with gameCacheMap := aSet s.gameCacheMap normalizedGameId c })

/-! ### `getSnapshot` -/

/-- The arguments of a snapshot query, before sanitization (`gameIds` arrives
already split into strings by `parseGameIds`). -/
structure SnapshotArgs where
  gameIds : List String
  playerId : JSVal
  topLimit : JSVal

/-- The per-game part of a snapshot. -/
structure GameView where
  top : List RankedEntry
  my : Option RankedEntry
deriving DecidableEq, Repr

/-- A snapshot as returned to the HTTP boundary. -/
structure Snapshot where
  enabled : Bool
  season : Season
  revision : JSNum
  generatedAt : Int
  overallTop : List RankedEntry
  myOverall : Option RankedEntry
  games : List (String × GameView)
deriving DecidableEq, Repr

/-- The outcome of a snapshot query. -/
structure SnapOut where
  snap : Snapshot
  store : Store
  eff : Effects

/-- Model of `Array.from(new Set(l))`: drop duplicates, keeping first occurrences. -/
def dedupFirst (l : List String) : List String :=
  l.foldl (fun acc x => if x ∈ acc then acc else acc ++ [x]) []

/-- The game-id normalization of `getSnapshot`: sanitize every requested id,
drop the ones that sanitize to empty, and deduplicate. -/
def normalizeGameIds (l : List String) : List String :=
  dedupFirst ((l.map (fun g => sanitizeId (JSVal.str g) "")).filter (fun g => g ≠ ""))

/-- The `forEach` loop of `getSnapshot` over the normalized game ids,
threading the store through the per-game cache builds. -/
def snapGames (limit : Nat) (pid : String) :
    List String → Store → List (String × GameView) × Store
  | [], s => ([], s)
  | g :: rest, s =>
      let built := buildGameCache g s
      let view : GameView :=
        { top := built.1.entries.take limit
          my := if pid = "" then none else rankByPlayer built.1.entries pid }
      let tail := snapGames limit pid rest built.2
      ((g, view) :: tail.1, tail.2)

/-- The body of `getSnapshot` after `ensureActiveSeason`: build or reuse the
overall cache and each requested per-game cache, and assemble the snapshot. -/
def getSnapshotCore (nowMs : Int) (args : SnapshotArgs) (s : Store) : SnapOut :=
  let limit := (clampTopLimit args.topLimit).toNat
  let safePlayerId := sanitizeId args.playerId ""
  let overallBuilt := buildOverallCache s
  let overall := overallBuilt.1
  let myOverall :=
    if safePlayerId = "" then none else rankByPlayer overall.entries safePlayerId
  let normalizedGameIds := normalizeGameIds args.gameIds
  let built := snapGames limit safePlayerId normalizedGameIds overallBuilt.2
  { snap :=
      { enabled := true
        season := built.2.state.season
        revision := built.2.state.revision
        generatedAt := nowMs
        overallTop := overall.entries.take limit
        myOverall := myOverall
        games := built.1 }
    store := built.2
    eff := noEffects }

/-- Model of `getSnapshot({gameIds, playerId, topLimit})` at wall-clock time `nowMs`:
ensure the season first, then read through the caches. -/
def getSnapshot (nowMs : Int) (args : SnapshotArgs) (s0 : Store) : SnapOut :=
  let ens := ensureActiveSeason nowMs s0
  let core := getSnapshotCore nowMs args ens.2.1
  { snap := core.snap
    store := core.store
    eff := ⟨core.eff.persists + ens.2.2.persists, core.eff.notifies + ens.2.2.notifies⟩ }

/-! ### Specification predicates and concrete fixtures -/

/-- The stored season matches the one the clock would compute at time `t`
(every public operation starts by re-establishing this). -/
def seasonCurrentAt (t : Int) (s : Store) : Prop :=
  s.state.season.id = (computeKstSeasonWindow t).id

instance (t : Int) (s : Store) : Decidable (seasonCurrentAt t s) := by
  unfold seasonCurrentAt
  infer_instance

/-- The stored per-game score of a player, read as the JS code reads it:
absent players and absent games read as 0. -/
def storedGameScore (s : Store) (uid g : String) : Int :=
  match aGet s.state.players uid with
  | some p => (aGet p.gameScores g).getD 0
  | none => 0

/-- The sanitized positive scores a single raw `gameScores` value submits for
the game `g` (in submission order). -/
def relevantScores : List (String × JSVal) → String → List Int
  | [], _ => []
  | e :: rest, g =>
      let gameId := sanitizeId (JSVal.str e.1) ""
      let score := toSafeScore e.2
      if gameId = g ∧ ¬(gameId = "" ∨ score ≤ 0) then score :: relevantScores rest g
      else relevantScores rest g

/-- All sanitized positive scores a sequence of `syncPlayer` calls submits
for the pair `(uid, g)`. -/
def submittedScores (calls : List (Int × SyncPayload)) (uid g : String) : List Int :=
  (calls.map (fun c =>
    if sanitizeId c.2.playerId "" = uid then
      relevantScores (syncSourceScores c.2) g
    else [])).flatten

/-- Run a sequence of `syncPlayer` calls (each with its wall-clock time),
keeping the store of each outcome. -/
def applyCalls (s : Store) : List (Int × SyncPayload) → Store
  | [] => s
  | c :: rest => applyCalls (syncPlayer c.1 c.2 s).store rest

/-- Every score stored in a game-score object is positive. -/
def scoresPositive (st : StoreState) : Prop :=
  ∀ e ∈ st.players, ∀ g ∈ e.2.gameScores, 0 < g.2

/-- The data-model invariant: each overall score is the sum of the values of
the game-score object of its record. -/
def overallInvariant (st : StoreState) : Prop :=
  ∀ e ∈ st.players, e.2.overallScore = (e.2.gameScores.map (fun g => g.2)).sum

/-- Store well-formedness used by the invariant-preservation results. -/
def storeWf (s : Store) : Prop :=
  scoresPositive s.state ∧ overallInvariant s.state

instance (st : StoreState) : Decidable (scoresPositive st) := by
  unfold scoresPositive
  infer_instance

instance (st : StoreState) : Decidable (overallInvariant st) := by
  unfold overallInvariant
  infer_instance

instance (s : Store) : Decidable (storeWf s) := by
  unfold storeWf
  infer_instance

/-- Cache coherence: every cache whose tag strictly equals the live revision
holds exactly the ranking recomputed from the live players map. -/
def cacheCoherent (s : Store) : Prop :=
  (∀ c, s.overallCache = some c → JSNum.seq c.revision s.state.revision = true →
      c.entries = overallEntries s.state)
  ∧ (∀ g c, (g, c) ∈ s.gameCacheMap → JSNum.seq c.revision s.state.revision = true →
      c.entries = gameEntries s.state g)

/-- An empty store whose season is current at time 0, used by witnesses. -/
def emptyStore0 : Store :=
  { state := createEmptyState 0, overallCache := none, gameCacheMap := [] }

/-- A one-player store used by witnesses and counterexamples: the player has
score 5 in game g, the default nickname and avatar, and update time 0. -/
def oneP1Store : Store :=
  { state :=
      { version := 1
        revision := JSNum.rat 1
        updatedAt := 0
        season := computeKstSeasonWindow 0
        players := [("p1",
          { uid := "p1", nickname := "Player", avatar := "default"
            updatedAt := 0, gameScores := [("g", 5)], overallScore := 5 })] }
    overallCache := none
    gameCacheMap := [] }

/-- A payload that resubmits exactly the stored data of the player of
`oneP1Store` (no meaningful change). -/
def resubmitP1 : SyncPayload :=
  ⟨JSVal.str "p1", JSVal.undef, JSVal.undef,
    JSVal.obj [("g", JSVal.num (JSNum.rat 5))]⟩

/-- A payload whose player id sanitizes to the empty string. -/
def badIdPayload : SyncPayload :=
  ⟨JSVal.undef, JSVal.undef, JSVal.undef, JSVal.undef⟩

/-- A store whose stored season id cannot match any computed season id, so
the next operation triggers a season reset. -/
def staleSeasonStore : Store :=
  { state :=
      { version := 1
        revision := JSNum.rat 1
        updatedAt := 0
        season :=
          { id := "stale", startAt := 0, endAt := 0
            timezone := "Asia/Seoul", resetRule := "weekly Monday 09:00 KST" }
        players := [] }
    overallCache := none
    gameCacheMap := [] }

/-- Two players tied at score 100 in game g, with different update times;
the earlier update time (p2) ranks first.  Season current at time 0. -/
def tiedStore : Store :=
  { state :=
      { version := 1
        revision := JSNum.rat 1
        updatedAt := 0
        season := computeKstSeasonWindow 0
        players :=
          [("p1",
            { uid := "p1", nickname := "Player", avatar := "default"
              updatedAt := 1000, gameScores := [("g", 100)], overallScore := 100 }),
           ("p2",
            { uid := "p2", nickname := "Player", avatar := "default"
              updatedAt := 500, gameScores := [("g", 100)], overallScore := 100 })] }
    overallCache := none
    gameCacheMap := [] }

/-- The snapshot query used by the cache-coherence counterexample. -/
def tiedArgs : SnapshotArgs := ⟨["g"], JSVal.undef, JSVal.num (JSNum.rat 10)⟩

/-- A payload that resubmits the stored data of p2 of `tiedStore`. -/
def resubmitP2 : SyncPayload :=
  ⟨JSVal.str "p2", JSVal.undef, JSVal.undef,
    JSVal.obj [("g", JSVal.num (JSNum.rat 100))]⟩

/-- The store `tiedStore` after one snapshot read (both caches built at revision 1). -/
def tiedStoreCached : Store := (getSnapshot 0 tiedArgs tiedStore).store

/-- The store `tiedStoreCached` after a no-meaningful-change resubmission for p2 at
time 2000: the record of p2 is rewritten with the new update time, the
revision stays 1, and the caches are kept. -/
def tiedStoreDrifted : Store := (syncPlayer 2000 resubmitP2 tiedStoreCached).store

/-- Ranking entries with strictly decreasing scores, used by witnesses. -/
def entryA : SrcEntry := ⟨"a", "Player", "default", 3, 0⟩

/-- Second witness entry. -/
def entryB : SrcEntry := ⟨"b", "Player", "default", 2, 0⟩

/-- Third witness entry. -/
def entryC : SrcEntry := ⟨"c", "Player", "default", 1, 0⟩

/-- A payload submitting score 5 for game g under player p1. -/
def submitG5 : SyncPayload :=
  ⟨JSVal.str "p1", JSVal.undef, JSVal.undef,
    JSVal.obj [("g", JSVal.num (JSNum.rat 5))]⟩

/-- A payload submitting score 3 for game g under player p1. -/
def submitG3 : SyncPayload :=
  ⟨JSVal.str "p1", JSVal.undef, JSVal.undef,
    JSVal.obj [("g", JSVal.num (JSNum.rat 3))]⟩

/-- The result of resubmitting the stored data of p1 of `oneP1Store`. -/
def noChangeResult : SyncResult :=
  ⟨"p1", 5, false, computeKstSeasonWindow 0, JSNum.rat 1⟩

/-- The cache-free ranking pipeline in the words of the specification: keep
the entries with positive score, sort them with the three-level comparator,
and assign 1-based contiguous ranks. -/
def specRankingOf (src : List SrcEntry) : List RankedEntry :=
  assignRanks (sortByCmp compareEntry (src.filter (fun e => 0 < e.score)))

/-- The specified overall top list: the cache-free recomputation from the
current players map, sliced to the clamped top limit. -/
def specOverallTop (st : StoreState) (topLimit : JSVal) : List RankedEntry :=
  (specRankingOf (st.players.map (fun e =>
    { uid := e.2.uid, nickname := e.2.nickname, avatar := e.2.avatar
      score := max 0 e.2.overallScore
      updatedAt := max 0 e.2.updatedAt : SrcEntry }))).take (clampTopLimit topLimit).toNat

/-- The specified per-game top list: the cache-free recomputation from the
current players map scored by one game, sliced to the clamped top limit. -/
def specGameTop (st : StoreState) (gameId : String) (topLimit : JSVal) :
    List RankedEntry :=
  (specRankingOf (st.players.map (fun e =>
    { uid := e.2.uid, nickname := e.2.nickname, avatar := e.2.avatar
      score := max 0 ((aGet e.2.gameScores gameId).getD 0)
      updatedAt := max 0 e.2.updatedAt : SrcEntry }))).take (clampTopLimit topLimit).toNat

/-! ### Helper lemmas -/

lemma aGet_aSet_self {α : Type} (l : List (String × α)) (k : String) (v : α) :
    aGet (aSet l k v) k = some v := by
  induction l with
  | nil => simp [aGet, aSet]
  | cons hd t ih =>
      obtain ⟨k1, w⟩ := hd
      by_cases hk : k1 = k
      · simp [aSet, hk, aGet]
      · simp [aSet, hk, aGet, ih]

lemma aGet_aSet_ne {α : Type} (l : List (String × α)) (k k2 : String) (v : α)
    (h : k ≠ k2) : aGet (aSet l k v) k2 = aGet l k2 := by
  induction l with
  | nil => simp [aGet, aSet, h]
  | cons hd t ih =>
      obtain ⟨k1, w⟩ := hd
      by_cases hk : k1 = k
      · subst hk
        simp [aSet, aGet, h]
      · by_cases hk2 : k1 = k2
        · subst hk2
          simp [aSet, hk, aGet]
        · simp [aSet, hk, aGet, hk2, ih]

lemma mem_aSet {α : Type} (l : List (String × α)) (k : String) (v : α) (e : String × α)
    (h : e ∈ aSet l k v) : e = (k, v) ∨ e ∈ l := by
  induction l with
  | nil => simpa [aSet] using h
  | cons hd t ih =>
      obtain ⟨k1, w⟩ := hd
      by_cases hk : k1 = k
      · subst hk
        simp only [aSet, if_pos rfl] at h
        rcases List.mem_cons.mp h with h | h
        · exact Or.inl h
        · exact Or.inr (List.mem_cons_of_mem _ h)
      · simp only [aSet, if_neg hk] at h
        rcases List.mem_cons.mp h with h | h
        · exact Or.inr (by simp [h])
        · rcases ih h with h2 | h2
          · exact Or.inl h2
          · exact Or.inr (List.mem_cons_of_mem _ h2)

lemma aGet_mem {α : Type} (l : List (String × α)) (k : String) (v : α)
    (h : aGet l k = some v) : (k, v) ∈ l := by
  induction l with
  | nil => simp [aGet] at h
  | cons hd t ih =>
      obtain ⟨k1, w⟩ := hd
      by_cases hk : k1 = k
      · subst hk
        simp [aGet] at h
        subst h
        exact List.mem_cons_self _ _
      · simp only [aGet, if_neg hk] at h
        exact List.mem_cons_of_mem _ (ih h)

lemma aSet_self {α : Type} (l : List (String × α)) (k : String) (v : α)
    (h : aGet l k = some v) : aSet l k v = l := by
  induction l with
  | nil => simp [aGet] at h
  | cons hd t ih =>
      obtain ⟨k1, w⟩ := hd
      by_cases hk : k1 = k
      · subst hk
        simp [aGet] at h
        simp [aSet, h]
      · simp only [aGet, if_neg hk] at h
        simp [aSet, hk, ih h]

lemma length_jsSlice (s : String) (n : Nat) : (jsSlice s n).length ≤ n := by
  show (s.data.take n).length ≤ n
  simp [List.length_take]

lemma all_take_filter (p : Char → Bool) (l : List Char) (n : Nat) :
    ((l.filter p).take n).all p = true := by
  refine List.all_eq_true.mpr (fun c hc => ?_)
  exact List.of_mem_filter (List.take_subset _ _ hc)

lemma sanitizeId_length (v : JSVal) (fb : String) : (sanitizeId v fb).length ≤ 96 := by
  unfold sanitizeId
  by_cases h : sanitizeString v fb 96 = ""
  · simp [h, String.length]
  · simp only [h, if_neg h]
    exact length_jsSlice _ _

lemma sanitizeId_all (v : JSVal) (fb : String) :
    (sanitizeId v fb).data.all isIdChar = true := by
  unfold sanitizeId
  by_cases h : sanitizeString v fb 96 = ""
  · simp [h]
  · simp only [h, if_neg h]
    exact all_take_filter isIdChar _ 96

/-! ### C9: sanitizer totality and bounds -/

/-- C9.  Sanitizer totality and bounds: the sanitizers are total functions
(their Lean models are total by construction), `toSafeScore` is nonnegative
with non-finite inputs mapped to 0, `clampTopLimit` lands in `[1, 50]` with
the documented concrete values, `sanitizeId` yields at most 96 characters all
from the id alphabet, `toSafeTimestamp` is nonnegative or the fallback, and
`sanitizeString` respects its length bound or yields the fallback. -/
theorem sanitizers_total_and_bounded (v : JSVal) (fb : String) (fbTs : Int) (n : Nat) :
    0 ≤ toSafeScore v
  ∧ toSafeScore (JSVal.num JSNum.nan) = 0
  ∧ toSafeScore (JSVal.num JSNum.inf) = 0
  ∧ toSafeScore (JSVal.num JSNum.ninf) = 0
  ∧ 1 ≤ clampTopLimit v
  ∧ clampTopLimit v ≤ 50
  ∧ clampTopLimit (JSVal.num (JSNum.rat 500)) = 50
  ∧ clampTopLimit (JSVal.num (JSNum.rat (-3))) = 1
  ∧ clampTopLimit (JSVal.str "abc") = 10
  ∧ (sanitizeId v fb).length ≤ 96
  ∧ (sanitizeId v fb).data.all isIdChar = true
  ∧ (0 ≤ toSafeTimestamp v fbTs ∨ toSafeTimestamp v fbTs = fbTs)
  ∧ ((sanitizeString v fb n).length ≤ n ∨ sanitizeString v fb n = fb) := by
  refine ⟨?_, rfl, rfl, rfl, ?_, ?_, by decide, by decide, by decide,
    sanitizeId_length v fb, sanitizeId_all v fb, ?_, ?_⟩
  · unfold toSafeScore
    cases v.toNumber <;> simp <;> omega
  · unfold clampTopLimit
    cases v.toNumber <;> simp <;> omega
  · unfold clampTopLimit
    cases v.toNumber <;> simp <;> omega
  · unfold toSafeTimestamp
    cases v.toNumber <;> simp <;> omega
  · unfold sanitizeString
    by_cases h : (match v with | JSVal.str s => jsTrim s | _ => "") = ""
    · right
      simp [h]
    · left
      simp only [h, if_neg h]
      exact length_jsSlice _ _

/-! ### C10: `normalizeState` does not re-establish the revision invariant -/

/-- C10 (failing evaluation).  On the persisted content
`{"revision": "abc"}` the revision computed by `normalizeState` is NaN:
`"abc"` is truthy, `Number("abc")` is NaN, and `Math.max(1, NaN)` is NaN, so
the documented clamp to an integer of at least 1 does not happen. -/
theorem normalizeState_revision_nan :
    (normalizeState 0 (JSVal.obj [("revision", JSVal.str "abc")])).revision
      = JSNum.nan := by
  rfl

/-! ### C7: the season window always contains the query instant -/

/-- C7.  Season window correctness: for every input time, the computed
window satisfies `startAt ≤ nowMs < endAt`, spans exactly seven days, and its
start shifted into UTC+9 is the 09:00 hour of a Monday (day index `k` with
weekday `(k + 4) % 7 = 1`). -/
theorem computeKstSeasonWindow_contains (nowMs : Int) :
    (computeKstSeasonWindow nowMs).startAt ≤ nowMs
  ∧ nowMs < (computeKstSeasonWindow nowMs).endAt
  ∧ (computeKstSeasonWindow nowMs).endAt = (computeKstSeasonWindow nowMs).startAt + WEEK_MS
  ∧ ∃ k : Int,
      (computeKstSeasonWindow nowMs).startAt + KST_OFFSET_MS
          = k * DAY_MS + KST_RESET_HOUR * HOUR_MS
      ∧ (k + 4) % 7 = 1 := by
  have hstart : (computeKstSeasonWindow nowMs).startAt
      = seasonStartKstOf nowMs - KST_OFFSET_MS := rfl
  have hend : (computeKstSeasonWindow nowMs).endAt
      = seasonStartKstOf nowMs + WEEK_MS - KST_OFFSET_MS := rfl
  rw [hstart, hend]
  have key : (seasonStartKstOf nowMs ≤ nowMs + KST_OFFSET_MS
        ∧ nowMs + KST_OFFSET_MS < seasonStartKstOf nowMs + WEEK_MS)
      ∧ ∃ k : Int, seasonStartKstOf nowMs = k * DAY_MS + KST_RESET_HOUR * HOUR_MS
        ∧ (k + 4) % 7 = 1 := by
    unfold seasonStartKstOf
    simp only [KST_OFFSET_MS, DAY_MS, HOUR_MS, WEEK_MS, KST_RESET_HOUR]
    norm_num
    split_ifs with hc
    · refine ⟨⟨by omega, by omega⟩,
        ⟨(nowMs + 32400000) / 86400000
          - (((nowMs + 32400000) / 86400000 + 4) % 7 + 6) % 7 - 7, by omega, by omega⟩⟩
    · refine ⟨⟨by omega, by omega⟩,
        ⟨(nowMs + 32400000) / 86400000
          - (((nowMs + 32400000) / 86400000 + 4) % 7 + 6) % 7, by omega, by omega⟩⟩
  obtain ⟨⟨h1, h2⟩, k, hk, hk7⟩ := key
  exact ⟨by omega, by omega, by omega, ⟨k, by omega, hk7⟩⟩

/-! ### C3: the ranking comparator is a deterministic three-level total order -/

lemma lceGo_zero_iff : ∀ l1 l2 : List Char, localeCompareEn.go l1 l2 = 0 ↔ l1 = l2 := by
  intro l1
  induction l1 with
  | nil => intro l2; cases l2 <;> simp [localeCompareEn.go]
  | cons c cs ih =>
      intro l2
      cases l2 with
      | nil => simp [localeCompareEn.go]
      | cons d ds =>
          by_cases h1 : c < d
          · simp only [localeCompareEn.go, if_pos h1]
            constructor
            · intro h; exact absurd h (by decide)
            · intro h
              exact absurd (List.cons.injEq .. ▸ h).1 (ne_of_lt h1)
          · by_cases h2 : d < c
            · simp only [localeCompareEn.go, if_neg h1, if_pos h2]
              constructor
              · intro h; exact absurd h (by decide)
              · intro h
                exact absurd (List.cons.injEq .. ▸ h).1 (ne_of_gt h2)
            · have hcd : c = d := le_antisymm (not_lt.mp h2) (not_lt.mp h1)
              simp [localeCompareEn.go, h1, h2, hcd, ih]

lemma lceGo_flip : ∀ l1 l2 : List Char, localeCompareEn.go l2 l1 = -localeCompareEn.go l1 l2 := by
  intro l1
  induction l1 with
  | nil => intro l2; cases l2 <;> simp [localeCompareEn.go]
  | cons c cs ih =>
      intro l2
      cases l2 with
      | nil => simp [localeCompareEn.go]
      | cons d ds =>
          by_cases h1 : c < d
          · have h2 : ¬d < c := lt_asymm h1
            have h3 : c ≠ d := ne_of_lt h1
            simp [localeCompareEn.go, h1, h2]
          · by_cases h2 : d < c
            · simp [localeCompareEn.go, h1, h2]
            · have hcd : c = d := le_antisymm (not_lt.mp h2) (not_lt.mp h1)
              subst hcd
              simp [localeCompareEn.go, h1, h2, ih]

lemma lceGo_trans : ∀ l1 l2 l3 : List Char,
    localeCompareEn.go l1 l2 < 0 → localeCompareEn.go l2 l3 < 0 →
    localeCompareEn.go l1 l3 < 0 := by
  intro l1
  induction l1 with
  | nil =>
      intro l2 l3 h12 h23
      cases l3 with
      | nil =>
          cases l2 with
          | nil => simpa [localeCompareEn.go] using h12
          | cons d ds => simp [localeCompareEn.go] at h23
            
      | cons e es => simp [localeCompareEn.go]
  | cons c cs ih =>
      intro l2 l3 h12 h23
      cases l2 with
      | nil => simp [localeCompareEn.go] at h12
      | cons d ds =>
          cases l3 with
          | nil => simp [localeCompareEn.go] at h23
          | cons e es =>
              by_cases hcd : c < d
              · by_cases hde : d < e
                · have hce : c < e := lt_trans hcd hde
                  simp [localeCompareEn.go, hce]
                · by_cases hed : e < d
                  · simp only [localeCompareEn.go, if_neg hde, if_pos hed] at h23
                    exact absurd h23 (by decide)
                  · have : d = e := le_antisymm (not_lt.mp hed) (not_lt.mp hde)
                    subst this
                    simp [localeCompareEn.go, hcd]
              · by_cases hdc : d < c
                · simp only [localeCompareEn.go, if_neg hcd, if_pos hdc] at h12
                  exact absurd h12 (by decide)
                · have hcd2 : c = d := le_antisymm (not_lt.mp hdc) (not_lt.mp hcd)
                  subst hcd2
                  simp only [localeCompareEn.go, lt_irrefl, if_neg (lt_irrefl c)] at h12
                  by_cases hce : c < e
                  · simp [localeCompareEn.go, hce]
                  · by_cases hec : e < c
                    · simp only [localeCompareEn.go, if_neg hce, if_pos hec] at h23
                      exact absurd h23 (by decide)
                    · have : c = e := le_antisymm (not_lt.mp hec) (not_lt.mp hce)
                      subst this
                      simp only [localeCompareEn.go, lt_irrefl, if_neg (lt_irrefl c)] at h23 ⊢
                      exact ih ds es h12 h23

lemma localeCompareEn_zero_iff (a b : String) : localeCompareEn a b = 0 ↔ a = b := by
  unfold localeCompareEn
  rw [lceGo_zero_iff]
  constructor
  · intro h
    cases a; cases b; exact congrArg String.mk h
  · intro h; rw [h]

lemma compareEntry_lt_iff (a b : SrcEntry) :
    compareEntry a b < 0 ↔
      (b.score < a.score
       ∨ (a.score = b.score ∧ a.updatedAt < b.updatedAt)
       ∨ (a.score = b.score ∧ a.updatedAt = b.updatedAt
            ∧ localeCompareEn a.uid b.uid < 0)) := by
  unfold compareEntry
  by_cases h1 : b.score ≠ a.score
  · simp only [if_pos h1]
    constructor
    · intro h
      exact Or.inl (by omega)
    · rintro (h | ⟨h, -⟩ | ⟨h, -, -⟩) <;> omega
  · simp only [if_neg h1]
    by_cases h2 : a.updatedAt ≠ b.updatedAt
    · simp only [if_pos h2]
      constructor
      · intro h
        exact Or.inr (Or.inl ⟨by omega, by omega⟩)
      · rintro (h | ⟨-, h⟩ | ⟨-, h, -⟩) <;> omega
    · simp only [if_neg h2]
      constructor
      · intro h
        exact Or.inr (Or.inr ⟨by omega, by omega, h⟩)
      · rintro (h | ⟨-, h⟩ | ⟨-, -, h⟩)
        · omega
        · omega
        · exact h

lemma compareEntry_eq_iff (a b : SrcEntry) :
    compareEntry a b = 0 ↔
      (a.score = b.score ∧ a.updatedAt = b.updatedAt ∧ a.uid = b.uid) := by
  unfold compareEntry
  by_cases h1 : b.score ≠ a.score
  · simp only [if_pos h1]
    constructor
    · intro h; omega
    · rintro ⟨h, -, -⟩; omega
  · simp only [if_neg h1]
    by_cases h2 : a.updatedAt ≠ b.updatedAt
    · simp only [if_pos h2]
      constructor
      · intro h; omega
      · rintro ⟨-, h, -⟩; omega
    · simp only [if_neg h2]
      constructor
      · intro h
        exact ⟨by omega, by omega, (localeCompareEn_zero_iff _ _).mp h⟩
      · rintro ⟨-, -, h⟩
        exact (localeCompareEn_zero_iff _ _).mpr h

lemma localeCompareEn_trans (a b c : String) :
    localeCompareEn a b < 0 → localeCompareEn b c < 0 → localeCompareEn a c < 0 := by
  unfold localeCompareEn
  exact lceGo_trans a.data b.data c.data

lemma localeCompareEn_flip (a b : String) :
    localeCompareEn b a = -localeCompareEn a b := by
  unfold localeCompareEn
  exact lceGo_flip a.data b.data

lemma compareEntry_trans (a b c : SrcEntry) :
    compareEntry a b < 0 → compareEntry b c < 0 → compareEntry a c < 0 := by
  intro h12 h23
  rw [compareEntry_lt_iff] at h12 h23 ⊢
  rcases h12 with h | ⟨hs, hu⟩ | ⟨hs, hu, hl⟩ <;>
    rcases h23 with g | ⟨gs, gu⟩ | ⟨gs, gu, gl⟩
  · exact Or.inl (by omega)
  · exact Or.inl (by omega)
  · exact Or.inl (by omega)
  · exact Or.inl (by omega)
  · exact Or.inr (Or.inl ⟨by omega, by omega⟩)
  · exact Or.inr (Or.inl ⟨by omega, by omega⟩)
  · exact Or.inl (by omega)
  · exact Or.inr (Or.inl ⟨by omega, by omega⟩)
  · exact Or.inr (Or.inr ⟨by omega, by omega, localeCompareEn_trans _ _ _ hl gl⟩)

lemma compareEntry_flip (a b : SrcEntry) :
    compareEntry b a = -compareEntry a b := by
  unfold compareEntry
  by_cases h1 : b.score ≠ a.score
  · have h1s : a.score ≠ b.score := fun h => h1 h.symm
    simp only [if_pos h1, if_pos h1s]
    omega
  · have h1s : ¬a.score ≠ b.score := fun h => h1 fun h2 => h (h2.symm)
    simp only [if_neg h1, if_neg h1s]
    by_cases h2 : a.updatedAt ≠ b.updatedAt
    · have h2s : b.updatedAt ≠ a.updatedAt := fun h => h2 h.symm
      simp only [if_pos h2, if_pos h2s]
      omega
    · have h2s : ¬b.updatedAt ≠ a.updatedAt := fun h => h2 fun h3 => h (h3.symm)
      simp only [if_neg h2, if_neg h2s]
      exact localeCompareEn_flip a.uid b.uid

/-- C3.  The ranking comparator (shared by the overall and per-game builds)
is the three-level lexicographic order: score descending, then `updatedAt`
ascending, then uid ascending; it is antisymmetric, transitive, total, and
two entries compare equal exactly when score, update time and uid all agree,
so a fixed input set has exactly one sorted order. -/
theorem compareEntry_total_order (a b c : SrcEntry) :
    (compareEntry a b < 0 ↔
      (b.score < a.score
       ∨ (a.score = b.score ∧ a.updatedAt < b.updatedAt)
       ∨ (a.score = b.score ∧ a.updatedAt = b.updatedAt
            ∧ localeCompareEn a.uid b.uid < 0)))
  ∧ (compareEntry a b = 0 ↔
      (a.score = b.score ∧ a.updatedAt = b.updatedAt ∧ a.uid = b.uid))
  ∧ (compareEntry a b < 0 → compareEntry b c < 0 → compareEntry a c < 0)
  ∧ (compareEntry a b < 0 ∨ compareEntry a b = 0 ∨ 0 < compareEntry a b)
  ∧ compareEntry b a = -compareEntry a b :=
  ⟨compareEntry_lt_iff a b, compareEntry_eq_iff a b, compareEntry_trans a b c,
    by omega, compareEntry_flip a b⟩

/-- Witness for C3 at concrete entries with decreasing scores. -/
theorem compareEntry_total_order_witness :
    compareEntry entryA entryB < 0 ∧ compareEntry entryB entryC < 0
      ∧ compareEntry entryA entryC < 0 :=
  ⟨by decide, by decide,
    (compareEntry_total_order entryA entryB entryC).2.2.1 (by decide) (by decide)⟩

/-! ### C6: invalid player id fails with 400; the season reset runs first -/

lemma ensureActiveSeason_noop {t : Int} {s : Store} (h : seasonCurrentAt t s) :
    ensureActiveSeason t s = (false, s, noEffects) := by
  unfold seasonCurrentAt at h
  simp [ensureActiveSeason, h]

/-- C6 (amended).  When the stored season is current, a `syncPlayer` call
whose player id sanitizes to the empty string throws the 400-status
`invalid-player-id` error and performs no mutation and no side effects. -/
theorem syncPlayer_invalid_id_rejected (t : Int) (p : SyncPayload) (s : Store)
    (hseason : seasonCurrentAt t s)
    (hbad : sanitizeId p.playerId "" = "") :
    (syncPlayer t p s).result
        = Except.error { message := "invalid-player-id", statusCode := 400 }
  ∧ (syncPlayer t p s).store = s
  ∧ (syncPlayer t p s).eff = noEffects := by
  simp [syncPlayer, syncPlayerCore, ensureActiveSeason_noop hseason, hbad, noEffects]

/-- Witness for C6 (amended) on the empty store at time 0. -/
theorem syncPlayer_invalid_id_rejected_witness :
    seasonCurrentAt 0 emptyStore0
  ∧ sanitizeId badIdPayload.playerId "" = ""
  ∧ (syncPlayer 0 badIdPayload emptyStore0).store = emptyStore0 :=
  ⟨by decide, by decide,
    (syncPlayer_invalid_id_rejected 0 badIdPayload emptyStore0 (by decide) (by decide)).2.1⟩

/-- C6 (counterexample).  On a store whose stored season is stale, the failed
call still mutates the store: `ensureActiveSeason` runs before the player id
is validated, so the 400-rejected call resets the season and bumps the
revision. -/
theorem syncPlayer_invalid_id_mutates_on_stale_season :
    (match (syncPlayer 0 badIdPayload staleSeasonStore).result with
      | Except.error e => some e.statusCode
      | Except.ok _ => none) = some 400
  ∧ (syncPlayer 0 badIdPayload staleSeasonStore).store.state.revision
      ≠ staleSeasonStore.state.revision := by
  refine ⟨rfl, ?_⟩
  decide

/-! ### C8: season rollover happens at most once and fully resets -/

/-- C8.  If the clock stays inside one weekly window, a second
`ensureActiveSeason` right after a first one never resets again and changes
nothing; a call on a current season is a no-op; and a call that does reset
returns true, empties the players map, installs the freshly computed window,
and strictly increases a finite revision. -/
theorem ensureActiveSeason_reset_once (s : Store) (t1 t2 : Int)
    (hsame : (computeKstSeasonWindow t2).id = (computeKstSeasonWindow t1).id) :
    ensureActiveSeason t2 (ensureActiveSeason t1 s).2.1
      = (false, (ensureActiveSeason t1 s).2.1, noEffects)
  ∧ (seasonCurrentAt t1 s → ensureActiveSeason t1 s = (false, s, noEffects))
  ∧ (¬seasonCurrentAt t1 s →
      (ensureActiveSeason t1 s).1 = true
    ∧ (ensureActiveSeason t1 s).2.1.state.players = []
    ∧ (ensureActiveSeason t1 s).2.1.state.season = computeKstSeasonWindow t1
    ∧ ∀ i : Int, s.state.revision = JSNum.rat i →
        ∃ j : Int, (ensureActiveSeason t1 s).2.1.state.revision = JSNum.rat j
          ∧ i < j) := by
  by_cases h : s.state.season.id = (computeKstSeasonWindow t1).id
  · have e1 : ensureActiveSeason t1 s = (false, s, noEffects) :=
      ensureActiveSeason_noop h
    refine ⟨?_, fun _ => e1, fun hn => absurd h hn⟩
    rw [e1]
    exact ensureActiveSeason_noop (show seasonCurrentAt t2 s from h.trans hsame.symm)
  · have e1 : ensureActiveSeason t1 s
        = (true, invalidateRankingCache { s with state :=
            { version := 1
              revision := JSNum.add
                (if s.state.revision.truthy then s.state.revision else JSNum.rat 1)
                (JSNum.rat 1)
              updatedAt := t1
              season := computeKstSeasonWindow t1
              players := [] } }, ⟨1, 1⟩) := by
      unfold ensureActiveSeason
      rw [if_neg h]
    refine ⟨?_, fun hc => absurd hc h, fun _ => ?_⟩
    · rw [e1]
      exact ensureActiveSeason_noop (show _ = _ from hsame.symm)
    · rw [e1]
      refine ⟨rfl, rfl, rfl, fun i hi => ?_⟩
      rw [hi]
      by_cases hz : i = 0
      · subst hz
        exact ⟨2, rfl, by omega⟩
      · refine ⟨i + 1, ?_, by omega⟩
        simp [JSNum.truthy, JSNum.add, hz, invalidateRankingCache]

/-- Witness for C8: a stale store resets once at time 0 and the second call
at time 1000 (same weekly window) is a no-op. -/
theorem ensureActiveSeason_reset_once_witness :
    (computeKstSeasonWindow 1000).id = (computeKstSeasonWindow 0).id
  ∧ (ensureActiveSeason 0 staleSeasonStore).1 = true
  ∧ (ensureActiveSeason 0 staleSeasonStore).2.1.state.players = []
  ∧ ensureActiveSeason 1000 (ensureActiveSeason 0 staleSeasonStore).2.1
      = (false, (ensureActiveSeason 0 staleSeasonStore).2.1, noEffects) := by
  have h := ensureActiveSeason_reset_once staleSeasonStore 0 1000 (by decide)
  exact ⟨by decide, (h.2.2 (by decide)).1, (h.2.2 (by decide)).2.1, h.1⟩

/-! ### C5: a no-change sync keeps revision and effects, but rewrites the
record -/

lemma syncPlayer_current {t : Int} {p : SyncPayload} {s : Store}
    (hseason : seasonCurrentAt t s) :
    syncPlayer t p s = syncPlayerCore t p s := by
  unfold syncPlayer
  rw [ensureActiveSeason_noop hseason]
  rfl

lemma syncPlayerCore_bad (t : Int) (p : SyncPayload) (s : Store)
    (huid : sanitizeId p.playerId "" = "") :
    syncPlayerCore t p s =
      { store := s,
        result := Except.error { message := "invalid-player-id", statusCode := 400 },
        eff := noEffects } := by
  simp [syncPlayerCore, huid]

lemma syncPlayerCore_nochange (t : Int) (p : SyncPayload) (s : Store)
    (huid : ¬sanitizeId p.playerId "" = "")
    (hch : ¬syncChanged t p s (sanitizeId p.playerId "") = true) :
    syncPlayerCore t p s =
      { store := { s with state := { s.state with
          players := aSet s.state.players (sanitizeId p.playerId "")
            (syncNewRecord t p s (sanitizeId p.playerId "")) } },
        result := Except.ok
          { playerId := sanitizeId p.playerId "",
            overallScore := syncOverall t p s (sanitizeId p.playerId ""),
            hasMeaningfulChange := false,
            season := s.state.season,
            revision := s.state.revision },
        eff := noEffects } := by
  simp [syncPlayerCore, huid, hch]

lemma syncPlayerCore_changed (t : Int) (p : SyncPayload) (s : Store)
    (huid : ¬sanitizeId p.playerId "" = "")
    (hch : syncChanged t p s (sanitizeId p.playerId "") = true) :
    syncPlayerCore t p s =
      { store := invalidateRankingCache { s with state := { s.state with
          players := aSet s.state.players (sanitizeId p.playerId "")
            (syncNewRecord t p s (sanitizeId p.playerId "")),
          revision := JSNum.add s.state.revision (JSNum.rat 1),
          updatedAt := t } },
        result := Except.ok
          { playerId := sanitizeId p.playerId "",
            overallScore := syncOverall t p s (sanitizeId p.playerId ""),
            hasMeaningfulChange := true,
            season := s.state.season,
            revision := JSNum.add s.state.revision (JSNum.rat 1) },
        eff := ⟨1, 1⟩ } := by
  simp [syncPlayerCore, huid, hch]

/-- C5 (amended).  With the stored season current, a `syncPlayer` call whose
result reports no meaningful change leaves revision, the store `updatedAt`,
the season, both caches and the effect counters untouched -- but it still
rewrites the player record, whose `updatedAt` field becomes the call time. -/
theorem syncPlayer_no_change_frame (t : Int) (p : SyncPayload) (s : Store)
    (r : SyncResult)
    (hseason : seasonCurrentAt t s)
    (hok : (syncPlayer t p s).result = Except.ok r)
    (hnc : r.hasMeaningfulChange = false) :
    (syncPlayer t p s).store.state.revision = s.state.revision
  ∧ (syncPlayer t p s).store.state.updatedAt = s.state.updatedAt
  ∧ (syncPlayer t p s).store.state.season = s.state.season
  ∧ (syncPlayer t p s).store.overallCache = s.overallCache
  ∧ (syncPlayer t p s).store.gameCacheMap = s.gameCacheMap
  ∧ (syncPlayer t p s).eff = noEffects
  ∧ ∃ rec2 : Player,
      aGet (syncPlayer t p s).store.state.players (sanitizeId p.playerId "")
        = some rec2
      ∧ rec2.updatedAt = t := by
  rw [syncPlayer_current hseason] at hok ⊢
  by_cases huid : sanitizeId p.playerId "" = ""
  · rw [syncPlayerCore_bad t p s huid] at hok
    exact absurd hok (by simp)
  · by_cases hch : syncChanged t p s (sanitizeId p.playerId "") = true
    · rw [syncPlayerCore_changed t p s huid hch] at hok
      simp only [Except.ok.injEq] at hok
      rw [← hok] at hnc
      simp at hnc
    · rw [syncPlayerCore_nochange t p s huid hch]
      refine ⟨rfl, rfl, rfl, rfl, rfl, rfl,
        ⟨syncNewRecord t p s (sanitizeId p.playerId ""), ?_, rfl⟩⟩
      exact aGet_aSet_self _ _ _

/-- Witness for C5 (amended): resubmitting the stored data of p1 at time
100 reports no meaningful change and keeps revision, caches and effects. -/
theorem syncPlayer_no_change_frame_witness :
    (syncPlayer 100 resubmitP1 oneP1Store).result = Except.ok noChangeResult
  ∧ noChangeResult.hasMeaningfulChange = false
  ∧ (syncPlayer 100 resubmitP1 oneP1Store).store.state.revision
      = oneP1Store.state.revision
  ∧ (syncPlayer 100 resubmitP1 oneP1Store).eff = noEffects :=
  ⟨rfl, rfl,
    (syncPlayer_no_change_frame 100 resubmitP1 oneP1Store noChangeResult
      (by decide) rfl rfl).1,
    (syncPlayer_no_change_frame 100 resubmitP1 oneP1Store noChangeResult
      (by decide) rfl rfl).2.2.2.2.2.1⟩

/-- C5 (counterexample).  The same no-change resubmission does mutate the
store: the player record is rewritten and its `updatedAt` becomes the call
time, so the players map differs although `hasMeaningfulChange` is false. -/
theorem syncPlayer_no_change_rewrites_record :
    (syncPlayer 100 resubmitP1 oneP1Store).result.toOption.map
        (fun r => r.hasMeaningfulChange) = some false
  ∧ (syncPlayer 100 resubmitP1 oneP1Store).store.state.players
      ≠ oneP1Store.state.players := by
  exact ⟨rfl, by decide⟩

/-! ### C2: the overall score is always the sum of the game scores -/

lemma mergeGameScores_mem :
    ∀ (entries : List (String × JSVal)) (acc : List (String × Int)) (ch : Bool),
    ∀ g ∈ (mergeGameScores entries acc ch).1, g ∈ acc ∨ 0 < g.2 := by
  intro entries
  induction entries with
  | nil => intro acc ch g hg; exact Or.inl hg
  | cons e rest ih =>
      intro acc ch g hg
      simp only [mergeGameScores] at hg
      split_ifs at hg with h1 h2
      · exact ih acc ch g hg
      · rcases ih _ _ g hg with hmem | hpos
        · rcases mem_aSet _ _ _ _ hmem with he | hacc
          · right
            rw [he]
            exact lt_of_le_of_lt (le_max_left 0 _) h2
          · exact Or.inl hacc
        · exact Or.inr hpos
      · exact ih acc ch g hg

lemma normalizeGameScores_mem :
    ∀ (entries : List (String × JSVal)) (gs : List (String × Int)),
    ∀ g ∈ normalizeGameScores entries gs, g ∈ gs ∨ 0 < g.2 := by
  intro entries
  induction entries with
  | nil => intro gs g hg; exact Or.inl hg
  | cons e rest ih =>
      intro gs g hg
      simp only [normalizeGameScores] at hg
      split_ifs at hg with h1
      · exact ih gs g hg
      · rcases ih _ g hg with hmem | hpos
        · rcases mem_aSet _ _ _ _ hmem with he | hgs
          · right
            rw [he]
            simp only [not_or, not_le] at h1
            exact h1.2
          · exact Or.inl hgs
        · exact Or.inr hpos

lemma sum_max0 (l : List (String × Int)) (h : ∀ g ∈ l, 0 < g.2) :
    (l.map (fun g => max 0 g.2)).sum = (l.map (fun g => g.2)).sum := by
  induction l with
  | nil => rfl
  | cons hd tl ih =>
      simp only [List.map_cons, List.sum_cons]
      rw [ih (fun g hg => h g (List.mem_cons_of_mem _ hg))]
      have := h hd (List.mem_cons_self _ _)
      omega

lemma ensureActiveSeason_stale {t : Int} {s : Store}
    (h : ¬s.state.season.id = (computeKstSeasonWindow t).id) :
    ensureActiveSeason t s
      = (true, invalidateRankingCache { s with state :=
          { version := 1
            revision := JSNum.add
              (if s.state.revision.truthy then s.state.revision else JSNum.rat 1)
              (JSNum.rat 1)
            updatedAt := t
            season := computeKstSeasonWindow t
            players := [] } }, ⟨1, 1⟩) := by
  unfold ensureActiveSeason
  rw [if_neg h]

lemma storeWf_ensure (t : Int) (s : Store) (hwf : storeWf s) :
    storeWf (ensureActiveSeason t s).2.1 := by
  by_cases h : s.state.season.id = (computeKstSeasonWindow t).id
  · rw [ensureActiveSeason_noop h]
    exact hwf
  · rw [ensureActiveSeason_stale h]
    exact ⟨fun e he => by simp [invalidateRankingCache] at he,
      fun e he => by simp [invalidateRankingCache] at he⟩

lemma syncExisting_scores_pos (t : Int) (p : SyncPayload) (s : Store) (uid : String)
    (hwf : storeWf s) :
    ∀ g ∈ (syncExisting t p s uid).gameScores, 0 < g.2 := by
  unfold syncExisting
  cases hag : aGet s.state.players uid with
  | none => simp
  | some pl =>
      simp only [Option.getD_some]
      exact hwf.1 (uid, pl) (aGet_mem _ _ _ hag)

lemma syncMerged_scores_pos (t : Int) (p : SyncPayload) (s : Store) (uid : String)
    (hwf : storeWf s) :
    ∀ g ∈ (syncMerged t p s uid).1, 0 < g.2 := by
  intro g hg
  rcases mergeGameScores_mem _ _ _ g hg with hmem | hpos
  · exact syncExisting_scores_pos t p s uid hwf g hmem
  · exact hpos

lemma syncNewRecord_wf (t : Int) (p : SyncPayload) (s : Store) (uid : String)
    (hwf : storeWf s) :
    (∀ g ∈ (syncNewRecord t p s uid).gameScores, 0 < g.2)
  ∧ (syncNewRecord t p s uid).overallScore
      = ((syncNewRecord t p s uid).gameScores.map (fun g => g.2)).sum := by
  refine ⟨syncMerged_scores_pos t p s uid hwf, ?_⟩
  show syncOverall t p s uid = _
  unfold syncOverall
  exact sum_max0 _ (syncMerged_scores_pos t p s uid hwf)

lemma storeWf_syncCore (t : Int) (p : SyncPayload) (s : Store) (hwf : storeWf s) :
    storeWf (syncPlayerCore t p s).store := by
  by_cases huid : sanitizeId p.playerId "" = ""
  · rw [syncPlayerCore_bad t p s huid]
    exact hwf
  · have hrec := syncNewRecord_wf t p s (sanitizeId p.playerId "") hwf
    have hplayers :
        (∀ e ∈ aSet s.state.players (sanitizeId p.playerId "")
            (syncNewRecord t p s (sanitizeId p.playerId "")),
          (∀ g ∈ e.2.gameScores, 0 < g.2)
          ∧ e.2.overallScore = (e.2.gameScores.map (fun g => g.2)).sum) := by
      intro e he
      rcases mem_aSet _ _ _ _ he with he2 | he2
      · rw [he2]
        exact hrec
      · exact ⟨hwf.1 e he2, hwf.2 e he2⟩
    by_cases hch : syncChanged t p s (sanitizeId p.playerId "") = true
    · rw [syncPlayerCore_changed t p s huid hch]
      exact ⟨fun e he => (hplayers e he).1, fun e he => (hplayers e he).2⟩
    · rw [syncPlayerCore_nochange t p s huid hch]
      exact ⟨fun e he => (hplayers e he).1, fun e he => (hplayers e he).2⟩

lemma storeWf_sync (t : Int) (p : SyncPayload) (s : Store) (hwf : storeWf s) :
    storeWf (syncPlayer t p s).store := by
  have h1 : storeWf (ensureActiveSeason t s).2.1 := storeWf_ensure t s hwf
  have h2 : (syncPlayer t p s).store
      = (syncPlayerCore t p (ensureActiveSeason t s).2.1).store := rfl
  rw [h2]
  exact storeWf_syncCore t p _ h1

lemma normalizePlayer_wf (nowMs : Int) (uid : String) (rawPlayer : JSVal) :
    (∀ g ∈ (normalizePlayer nowMs uid rawPlayer).gameScores, 0 < g.2)
  ∧ (normalizePlayer nowMs uid rawPlayer).overallScore
      = ((normalizePlayer nowMs uid rawPlayer).gameScores.map (fun g => g.2)).sum := by
  have hpos : ∀ g ∈ normalizeGameScores
      (jsObjEntries (getProp rawPlayer "gameScores")) [], 0 < g.2 := by
    intro g hg
    rcases normalizeGameScores_mem _ _ g hg with hmem | hpos
    · simp at hmem
    · exact hpos
  exact ⟨hpos, sum_max0 _ hpos⟩

lemma normalizePlayers_wf (nowMs : Int) :
    ∀ (entries : List (String × JSVal)) (acc : List (String × Player)),
    (∀ e ∈ acc, (∀ g ∈ e.2.gameScores, 0 < g.2)
        ∧ e.2.overallScore = (e.2.gameScores.map (fun g => g.2)).sum) →
    ∀ e ∈ normalizePlayers nowMs entries acc,
      (∀ g ∈ e.2.gameScores, 0 < g.2)
      ∧ e.2.overallScore = (e.2.gameScores.map (fun g => g.2)).sum := by
  intro entries
  induction entries with
  | nil => intro acc hacc e he; exact hacc e he
  | cons hd rest ih =>
      intro acc hacc e he
      simp only [normalizePlayers] at he
      split_ifs at he with h1
      · exact ih acc hacc e he
      · revert he
        cases hd.2 with
        | obj f =>
            intro he
            refine ih _ ?_ e he
            intro e2 he2
            rcases mem_aSet _ _ _ _ he2 with he3 | he3
            · rw [he3]
              exact normalizePlayer_wf nowMs _ _
            · exact hacc e2 he3
        | arr f =>
            intro he
            refine ih _ ?_ e he
            intro e2 he2
            rcases mem_aSet _ _ _ _ he2 with he3 | he3
            · rw [he3]
              exact normalizePlayer_wf nowMs _ _
            · exact hacc e2 he3
        | null => intro he; exact ih acc hacc e he
        | undef => intro he; exact ih acc hacc e he
        | bool b => intro he; exact ih acc hacc e he
        | num n => intro he; exact ih acc hacc e he
        | str s2 => intro he; exact ih acc hacc e he

lemma normalizeState_wf (nowMs : Int) (raw : JSVal) :
    scoresPositive (normalizeState nowMs raw)
  ∧ overallInvariant (normalizeState nowMs raw) := by
  have h : ∀ e ∈ (normalizeState nowMs raw).players,
      (∀ g ∈ e.2.gameScores, 0 < g.2)
      ∧ e.2.overallScore = (e.2.gameScores.map (fun g => g.2)).sum := by
    intro e he
    exact normalizePlayers_wf nowMs _ [] (by simp) e he
  exact ⟨fun e he => (h e he).1, fun e he => (h e he).2⟩

/-- C2.  Overall-score invariant: from a well-formed store, `syncPlayer` and
`ensureActiveSeason` yield well-formed stores (every record keeps
`overallScore` equal to the sum of its game scores, which stay positive), and
`normalizeState` and `load` re-establish the invariant from any parsed
content; `overallScore` is only ever written as that recomputed sum. -/
theorem mutations_preserve_overall_invariant (s : Store) (t : Int) (p : SyncPayload)
    (hwf : storeWf s) :
    storeWf (syncPlayer t p s).store
  ∧ storeWf (ensureActiveSeason t s).2.1
  ∧ (∀ (now : Int) (raw : JSVal),
      scoresPositive (normalizeState now raw) ∧ overallInvariant (normalizeState now raw))
  ∧ (∀ (now : Int) (parsed : Option JSVal), overallInvariant (load now parsed).1.state) := by
  refine ⟨storeWf_sync t p s hwf, storeWf_ensure t s hwf,
    fun now raw => normalizeState_wf now raw, fun now parsed => ?_⟩
  have hbase : storeWf { state := (match parsed with
      | some raw => normalizeState now raw
      | none => createEmptyState now), overallCache := none, gameCacheMap := [] } := by
    cases parsed with
    | some raw => exact ⟨(normalizeState_wf now raw).1, (normalizeState_wf now raw).2⟩
    | none => exact ⟨fun e he => by simp [createEmptyState] at he,
        fun e he => by simp [createEmptyState] at he⟩
  have := (storeWf_ensure now _ hbase).2
  exact this

/-- Witness for C2 on the well-formed one-player store. -/
theorem mutations_preserve_overall_invariant_witness :
    storeWf oneP1Store
  ∧ storeWf (syncPlayer 100 resubmitP1 oneP1Store).store :=
  ⟨by decide,
    (mutations_preserve_overall_invariant oneP1Store 100 resubmitP1 (by decide)).1⟩

/-! ### C1: the sync path is an order-independent monotone max-merge -/

lemma le_foldr_max (l : List Int) (b : Int) : b ≤ l.foldr max b := by
  induction l with
  | nil => exact le_refl b
  | cons hd tl ih => simp only [List.foldr_cons]; omega

lemma foldr_max_max (l : List Int) (x b : Int) :
    l.foldr max (max x b) = max x (l.foldr max b) := by
  induction l with
  | nil => rfl
  | cons hd tl ih => simp only [List.foldr_cons]; omega

lemma foldr_max_comm (A B : List Int) (b : Int) :
    A.foldr max (B.foldr max b) = B.foldr max (A.foldr max b) := by
  induction A with
  | nil => rfl
  | cons hd tl ih =>
      simp only [List.foldr_cons]
      rw [ih, ← foldr_max_max]

lemma foldr_max_perm {A B : List Int} (h : A.Perm B) (b : Int) :
    A.foldr max b = B.foldr max b := by
  induction h with
  | nil => rfl
  | cons x h2 ih => simp only [List.foldr_cons, ih]
  | swap x y l => simp only [List.foldr_cons]; omega
  | trans h1 h2 ih1 ih2 => rw [ih1, ih2]

lemma mergeGameScores_lookup (g : String) :
    ∀ (entries : List (String × JSVal)) (acc : List (String × Int)) (ch : Bool),
    (aGet (mergeGameScores entries acc ch).1 g).getD 0
      = (relevantScores entries g).foldr max ((aGet acc g).getD 0) := by
  intro entries
  induction entries with
  | nil => intro acc ch; rfl
  | cons e rest ih =>
      intro acc ch
      simp only [mergeGameScores, relevantScores]
      by_cases hskip : sanitizeId (JSVal.str e.1) "" = "" ∨ toSafeScore e.2 ≤ 0
      · have hrel : ¬(sanitizeId (JSVal.str e.1) "" = g
            ∧ ¬(sanitizeId (JSVal.str e.1) "" = "" ∨ toSafeScore e.2 ≤ 0)) := by
          intro hh
          exact hh.2 hskip
        rw [if_pos hskip, if_neg hrel]
        exact ih acc ch
      · rw [if_neg hskip]
        by_cases hg : sanitizeId (JSVal.str e.1) "" = g
        · have hrel : sanitizeId (JSVal.str e.1) "" = g
              ∧ ¬(sanitizeId (JSVal.str e.1) "" = "" ∨ toSafeScore e.2 ≤ 0) :=
            ⟨hg, hskip⟩
          rw [if_pos hrel]
          simp only [List.foldr_cons]
          by_cases hcmp : max 0 ((aGet acc (sanitizeId (JSVal.str e.1) "")).getD 0)
              < toSafeScore e.2
          · rw [if_pos hcmp, ih]
            rw [hg] at hcmp ⊢
            rw [aGet_aSet_self]
            simp only [Option.getD_some]
            have hb : (aGet acc g).getD 0 ≤ toSafeScore e.2 := by omega
            conv_lhs => rw [← max_eq_left hb]
            rw [foldr_max_max]
          · rw [if_neg hcmp, ih]
            rw [hg] at hcmp
            have h1 : 0 < toSafeScore e.2 := by omega
            have h2 : toSafeScore e.2 ≤ (aGet acc g).getD 0 := by omega
            have h3 := le_foldr_max (relevantScores rest g) ((aGet acc g).getD 0)
            omega
        · have hrel : ¬(sanitizeId (JSVal.str e.1) "" = g
              ∧ ¬(sanitizeId (JSVal.str e.1) "" = "" ∨ toSafeScore e.2 ≤ 0)) := by
            intro hh
            exact hg hh.1
          rw [if_neg hrel]
          by_cases hcmp : max 0 ((aGet acc (sanitizeId (JSVal.str e.1) "")).getD 0)
              < toSafeScore e.2
          · rw [if_pos hcmp, ih, aGet_aSet_ne _ _ _ _ hg]
          · rw [if_neg hcmp]
            exact ih acc ch

lemma syncExisting_stored (t : Int) (p : SyncPayload) (s : Store) (uid g : String) :
    (aGet (syncExisting t p s uid).gameScores g).getD 0 = storedGameScore s uid g := by
  unfold syncExisting storedGameScore
  cases aGet s.state.players uid with
  | none => rfl
  | some pl => rfl

lemma storedGameScore_of_aGet {s : Store} {uid : String} {pl : Player} (g : String)
    (h : aGet s.state.players uid = some pl) :
    storedGameScore s uid g = (aGet pl.gameScores g).getD 0 := by
  unfold storedGameScore
  rw [h]

lemma syncPlayer_stored (t : Int) (p : SyncPayload) (s : Store) (uid g : String)
    (huid : uid ≠ "") (hseason : seasonCurrentAt t s) :
    storedGameScore (syncPlayer t p s).store uid g
      = (submittedScores [(t, p)] uid g).foldr max (storedGameScore s uid g) := by
  rw [syncPlayer_current hseason]
  by_cases hpid : sanitizeId p.playerId "" = uid
  · have hpne : ¬sanitizeId p.playerId "" = "" := by rw [hpid]; exact huid
    have hsub : submittedScores [(t, p)] uid g
        = relevantScores (syncSourceScores p) g := by
      simp [submittedScores, hpid]
    rw [hsub]
    have hstored : ∀ st : Store, st.state.players
          = aSet s.state.players (sanitizeId p.playerId "")
              (syncNewRecord t p s (sanitizeId p.playerId "")) →
        storedGameScore st uid g
          = (relevantScores (syncSourceScores p) g).foldr max
              (storedGameScore s uid g) := by
      intro st hst
      have hget : aGet st.state.players uid = some (syncNewRecord t p s uid) := by
        rw [hst, hpid]
        exact aGet_aSet_self _ _ _
      rw [storedGameScore_of_aGet g hget]
      show (aGet (syncMerged t p s uid).1 g).getD 0 = _
      unfold syncMerged
      rw [mergeGameScores_lookup, syncExisting_stored]
    by_cases hch : syncChanged t p s (sanitizeId p.playerId "") = true
    · rw [syncPlayerCore_changed t p s hpne hch]
      exact hstored _ rfl
    · rw [syncPlayerCore_nochange t p s hpne hch]
      exact hstored _ rfl
  · have hsub : submittedScores [(t, p)] uid g = [] := by
      simp [submittedScores, hpid]
    rw [hsub]
    show storedGameScore (syncPlayerCore t p s).store uid g = storedGameScore s uid g
    by_cases hpne : sanitizeId p.playerId "" = ""
    · rw [syncPlayerCore_bad t p s hpne]
    · have hget : ∀ st : Store, st.state.players
            = aSet s.state.players (sanitizeId p.playerId "")
                (syncNewRecord t p s (sanitizeId p.playerId "")) →
          storedGameScore st uid g = storedGameScore s uid g := by
        intro st hst
        unfold storedGameScore
        rw [hst, aGet_aSet_ne _ _ _ _ hpid]
      by_cases hch : syncChanged t p s (sanitizeId p.playerId "") = true
      · rw [syncPlayerCore_changed t p s hpne hch]
        exact hget _ rfl
      · rw [syncPlayerCore_nochange t p s hpne hch]
        exact hget _ rfl

lemma syncPlayer_season (t : Int) (p : SyncPayload) (s : Store)
    (hseason : seasonCurrentAt t s) :
    (syncPlayer t p s).store.state.season = s.state.season := by
  rw [syncPlayer_current hseason]
  by_cases hpne : sanitizeId p.playerId "" = ""
  · rw [syncPlayerCore_bad t p s hpne]
  · by_cases hch : syncChanged t p s (sanitizeId p.playerId "") = true
    · rw [syncPlayerCore_changed t p s hpne hch]
      rfl
    · rw [syncPlayerCore_nochange t p s hpne hch]

lemma applyCalls_stored (uid g : String) (huid : uid ≠ "") :
    ∀ (calls : List (Int × SyncPayload)) (s : Store),
    (∀ c ∈ calls, seasonCurrentAt c.1 s) →
    storedGameScore (applyCalls s calls) uid g
      = (submittedScores calls uid g).foldr max (storedGameScore s uid g) := by
  intro calls
  induction calls with
  | nil => intro s h; rfl
  | cons c rest ih =>
      intro s h
      have hc : seasonCurrentAt c.1 s := h c (List.mem_cons_self _ _)
      have hrest : ∀ d ∈ rest, seasonCurrentAt d.1 (syncPlayer c.1 c.2 s).store := by
        intro d hd
        show (syncPlayer c.1 c.2 s).store.state.season.id = _
        rw [syncPlayer_season c.1 c.2 s hc]
        exact h d (List.mem_cons_of_mem _ hd)
      show storedGameScore (applyCalls (syncPlayer c.1 c.2 s).store rest) uid g = _
      rw [ih _ hrest]
      have hone := syncPlayer_stored c.1 c.2 s uid g huid hc
      rw [show submittedScores [(c.1, c.2)] uid g
          = (if sanitizeId c.2.playerId "" = uid then
              relevantScores (syncSourceScores c.2) g else [])
        from by simp [submittedScores]] at hone
      rw [hone]
      rw [show submittedScores (c :: rest) uid g
          = (if sanitizeId c.2.playerId "" = uid then
              relevantScores (syncSourceScores c.2) g else [])
            ++ submittedScores rest uid g
        from by simp [submittedScores]]
      rw [List.foldr_append]
      exact foldr_max_comm _ _ _

/-- C1.  Monotone score merge: with a valid uid and the season current at
every call time, the stored score for `(uid, g)` after any sequence of
`syncPlayer` calls is the maximum of its starting value and every sanitized
positive score submitted for that pair; a single call never decreases it, and
permuting the calls leaves the final stored score unchanged. -/
theorem syncPlayer_monotone_max_merge (s : Store) (uid g : String) (huid : uid ≠ "") :
    (∀ calls : List (Int × SyncPayload),
        (∀ c ∈ calls, seasonCurrentAt c.1 s) →
        storedGameScore (applyCalls s calls) uid g
          = (submittedScores calls uid g).foldr max (storedGameScore s uid g))
  ∧ (∀ (t : Int) (p : SyncPayload), seasonCurrentAt t s →
        storedGameScore s uid g ≤ storedGameScore (syncPlayer t p s).store uid g)
  ∧ (∀ calls calls2 : List (Int × SyncPayload), calls.Perm calls2 →
        (∀ c ∈ calls, seasonCurrentAt c.1 s) →
        storedGameScore (applyCalls s calls) uid g
          = storedGameScore (applyCalls s calls2) uid g) := by
  refine ⟨fun calls h => applyCalls_stored uid g huid calls s h, ?_, ?_⟩
  · intro t p hseason
    rw [syncPlayer_stored t p s uid g huid hseason]
    exact le_foldr_max _ _
  · intro calls calls2 hperm h
    have h2 : ∀ c ∈ calls2, seasonCurrentAt c.1 s :=
      fun c hc => h c (hperm.mem_iff.mpr hc)
    rw [applyCalls_stored uid g huid calls s h,
      applyCalls_stored uid g huid calls2 s h2]
    have hp : (submittedScores calls uid g).Perm (submittedScores calls2 uid g) :=
      (hperm.map _).flatten
    exact foldr_max_perm hp _

/-- Witness for C1: submitting 5 then 3 for p1/g from the empty store stores
the running maximum. -/
theorem syncPlayer_monotone_max_merge_witness :
    ("p1" : String) ≠ ""
  ∧ storedGameScore (applyCalls emptyStore0 [(10, submitG5), (20, submitG3)]) "p1" "g"
      = (submittedScores [(10, submitG5), (20, submitG3)] "p1" "g").foldr max
          (storedGameScore emptyStore0 "p1" "g")
  ∧ storedGameScore (applyCalls emptyStore0 [(10, submitG5), (20, submitG3)]) "p1" "g"
      = 5 :=
  ⟨by decide,
    (syncPlayer_monotone_max_merge emptyStore0 "p1" "g" (by decide)).1
      [(10, submitG5), (20, submitG3)] (by decide),
    by decide⟩

/-! ### C4: snapshots through the caches equal the cache-free recomputation -/

lemma jsseq_eq {a b : JSNum} (h : JSNum.seq a b = true) : a = b := by
  cases a <;> cases b <;> simp_all [JSNum.seq]

lemma isIdChar_not_ws (c : Char) (h : isIdChar c = true) : jsWs c = false := by
  have h1 : c ≠ ' ' := fun hc => by rw [hc] at h; exact absurd h (by decide)
  have h2 : c ≠ '\t' := fun hc => by rw [hc] at h; exact absurd h (by decide)
  have h3 : c ≠ '\n' := fun hc => by rw [hc] at h; exact absurd h (by decide)
  have h4 : c ≠ '\r' := fun hc => by rw [hc] at h; exact absurd h (by decide)
  simp [jsWs, h1, h2, h3, h4]

lemma dropWhile_all_false {α : Type} {p : α → Bool} :
    ∀ l : List α, (∀ x ∈ l, p x = false) → l.dropWhile p = l := by
  intro l h
  cases l with
  | nil => rfl
  | cons c t =>
      rw [List.dropWhile_cons, h c (List.mem_cons_self _ _)]
      simp

lemma jsTrim_eq_self (s : String) (h : ∀ c ∈ s.data, jsWs c = false) :
    jsTrim s = s := by
  unfold jsTrim
  rw [dropWhile_all_false s.data h]
  rw [dropWhile_all_false s.data.reverse (fun c hc => h c (List.mem_reverse.mp hc))]
  rw [List.reverse_reverse]

lemma sanitizeId_fixed (s : String)
    (hall : ∀ c ∈ s.data, isIdChar c = true)
    (hlen : s.data.length ≤ 96) :
    sanitizeId (JSVal.str s) "" = s := by
  have htrim : jsTrim s = s :=
    jsTrim_eq_self _ (fun c hc => isIdChar_not_ws c (hall c hc))
  have hbase : sanitizeString (JSVal.str s) "" 96 = s := by
    unfold sanitizeString
    simp only [htrim]
    by_cases hempty : s = ""
    · simp [hempty]
    · rw [if_neg hempty]
      unfold jsSlice
      rw [List.take_of_length_le hlen]
  unfold sanitizeId
  rw [hbase]
  by_cases hempty : s = ""
  · rw [if_pos hempty, hempty]
  · rw [if_neg hempty]
    unfold jsSlice
    rw [List.filter_eq_self.mpr hall, List.take_of_length_le hlen]

lemma sanitizeId_idem (v : JSVal) (fb : String) :
    sanitizeId (JSVal.str (sanitizeId v fb)) "" = sanitizeId v fb :=
  sanitizeId_fixed _ (List.all_eq_true.mp (sanitizeId_all v fb))
    (sanitizeId_length v fb)

lemma dedupFirst_mem :
    ∀ (l acc : List String) (x : String),
    x ∈ l.foldl (fun acc2 y => if y ∈ acc2 then acc2 else acc2 ++ [y]) acc →
    x ∈ acc ∨ x ∈ l := by
  intro l
  induction l with
  | nil => intro acc x h; exact Or.inl h
  | cons hd t ih =>
      intro acc x h
      simp only [List.foldl_cons] at h
      by_cases hmem : hd ∈ acc
      · rw [if_pos hmem] at h
        rcases ih acc x h with h2 | h2
        · exact Or.inl h2
        · exact Or.inr (List.mem_cons_of_mem _ h2)
      · rw [if_neg hmem] at h
        rcases ih _ x h with h2 | h2
        · rcases List.mem_append.mp h2 with h3 | h3
          · exact Or.inl h3
          · simp only [List.mem_singleton] at h3
            exact Or.inr (by simp [h3])
        · exact Or.inr (List.mem_cons_of_mem _ h2)

lemma normalizeGameIds_mem (l : List String) (g : String)
    (h : g ∈ normalizeGameIds l) :
    sanitizeId (JSVal.str g) "" = g ∧ g ≠ "" := by
  unfold normalizeGameIds dedupFirst at h
  rcases dedupFirst_mem _ [] g h with h2 | h2
  · simp at h2
  · have h3 := List.mem_filter.mp h2
    rcases List.mem_map.mp h3.1 with ⟨y, hy, hmap⟩
    refine ⟨?_, by simpa using h3.2⟩
    rw [← hmap]
    exact sanitizeId_idem (JSVal.str y) ""

lemma buildOverallCache_spec (s : Store)
    (hcoh : ∀ c, s.overallCache = some c →
      JSNum.seq c.revision s.state.revision = true →
      c.entries = overallEntries s.state) :
    (buildOverallCache s).1.entries = overallEntries s.state
  ∧ (buildOverallCache s).2.state = s.state
  ∧ (buildOverallCache s).2.gameCacheMap = s.gameCacheMap
  ∧ (∀ c, (buildOverallCache s).2.overallCache = some c →
      JSNum.seq c.revision s.state.revision = true →
      c.entries = overallEntries s.state) := by
  unfold buildOverallCache
  cases hc : s.overallCache with
  | none =>
      refine ⟨rfl, rfl, rfl, fun c hc2 hrev => ?_⟩
      simp only [Option.some.injEq] at hc2
      rw [← hc2]
  | some cached =>
      dsimp only
      by_cases hrev : JSNum.seq cached.revision s.state.revision = true
      · rw [if_pos hrev]
        exact ⟨hcoh cached hc hrev, rfl, rfl,
          fun c hc2 hrev2 => hcoh c hc2 hrev2⟩
      · rw [if_neg hrev]
        refine ⟨rfl, rfl, rfl, fun c hc2 hrev2 => ?_⟩
        simp only [Option.some.injEq] at hc2
        rw [← hc2]

lemma buildOverallCache_reuse (s : Store) (c : Cache)
    (hc : s.overallCache = some c)
    (hrev : JSNum.seq c.revision s.state.revision = true) :
    buildOverallCache s = (c, s) := by
  unfold buildOverallCache
  rw [hc]
  simp only [if_pos hrev]

lemma buildGameCache_spec (g : String) (s : Store)
    (hg : sanitizeId (JSVal.str g) "" = g) (hne : g ≠ "")
    (hcoh : ∀ g2 c, (g2, c) ∈ s.gameCacheMap →
      JSNum.seq c.revision s.state.revision = true →
      c.entries = gameEntries s.state g2) :
    (buildGameCache g s).1.entries = gameEntries s.state g
  ∧ (buildGameCache g s).2.state = s.state
  ∧ (buildGameCache g s).2.overallCache = s.overallCache
  ∧ (∀ g2 c, (g2, c) ∈ (buildGameCache g s).2.gameCacheMap →
      JSNum.seq c.revision s.state.revision = true →
      c.entries = gameEntries s.state g2) := by
  unfold buildGameCache
  rw [hg]
  simp only [hne, if_neg hne]
  cases haGet : aGet s.gameCacheMap g with
  | none =>
      dsimp only
      refine ⟨rfl, rfl, rfl, fun g2 c hmem hrev => ?_⟩
      rcases mem_aSet _ _ _ _ hmem with he | he
      · have hg2 : g2 = g := congrArg Prod.fst he
        have hcc : c = Cache.mk s.state.revision (gameEntries s.state g) :=
          congrArg Prod.snd he
        rw [hcc, hg2]
      · exact hcoh g2 c he hrev
  | some cached =>
      dsimp only
      by_cases hrev : JSNum.seq cached.revision s.state.revision = true
      · rw [if_pos hrev]
        exact ⟨hcoh g cached (aGet_mem _ _ _ haGet) hrev, rfl, rfl, hcoh⟩
      · rw [if_neg hrev]
        refine ⟨rfl, rfl, rfl, fun g2 c hmem hrev2 => ?_⟩
        rcases mem_aSet _ _ _ _ hmem with he | he
        · have hg2 : g2 = g := congrArg Prod.fst he
          have hcc : c = Cache.mk s.state.revision (gameEntries s.state g) :=
            congrArg Prod.snd he
          rw [hcc, hg2]
        · exact hcoh g2 c he hrev2

lemma buildGameCache_reuse (g : String) (s : Store) (c : Cache)
    (hg : sanitizeId (JSVal.str g) "" = g) (hne : g ≠ "")
    (hc : aGet s.gameCacheMap g = some c)
    (hrev : JSNum.seq c.revision s.state.revision = true) :
    buildGameCache g s = (c, s) := by
  unfold buildGameCache
  rw [hg]
  simp only [hne, if_neg hne]
  rw [hc]
  simp only [if_pos hrev]
  simp

lemma snapGames_spec (limit : Nat) (pid : String) :
    ∀ (gids : List String) (s : Store),
    (∀ g ∈ gids, sanitizeId (JSVal.str g) "" = g ∧ g ≠ "") →
    (∀ g2 c, (g2, c) ∈ s.gameCacheMap →
      JSNum.seq c.revision s.state.revision = true →
      c.entries = gameEntries s.state g2) →
    (snapGames limit pid gids s).1
        = gids.map (fun g => (g, GameView.mk ((gameEntries s.state g).take limit)
            (if pid = "" then none else rankByPlayer (gameEntries s.state g) pid)))
  ∧ (snapGames limit pid gids s).2.state = s.state
  ∧ (snapGames limit pid gids s).2.overallCache = s.overallCache
  ∧ (∀ g2 c, (g2, c) ∈ (snapGames limit pid gids s).2.gameCacheMap →
      JSNum.seq c.revision s.state.revision = true →
      c.entries = gameEntries s.state g2) := by
  intro gids
  induction gids with
  | nil => intro s hg hcoh; exact ⟨rfl, rfl, rfl, hcoh⟩
  | cons g rest ih =>
      intro s hg hcoh
      have hghead := hg g (List.mem_cons_self _ _)
      obtain ⟨hb1, hb2, hb3, hb4⟩ :=
        buildGameCache_spec g s hghead.1 hghead.2 hcoh
      have hcoh2 : ∀ g2 c, (g2, c) ∈ (buildGameCache g s).2.gameCacheMap →
          JSNum.seq c.revision (buildGameCache g s).2.state.revision = true →
          c.entries = gameEntries (buildGameCache g s).2.state g2 := by
        rw [hb2]
        exact hb4
      obtain ⟨ih1, ih2, ih3, ih4⟩ :=
        ih (buildGameCache g s).2 (fun g2 hg2 => hg g2 (List.mem_cons_of_mem _ hg2))
          hcoh2
      rw [hb2] at ih1 ih2 ih4
      rw [hb3] at ih3
      refine ⟨?_, ih2, ih3, ih4⟩
      show ((g, GameView.mk ((buildGameCache g s).1.entries.take limit)
          (if pid = "" then none
            else rankByPlayer (buildGameCache g s).1.entries pid))
        :: (snapGames limit pid rest (buildGameCache g s).2).1) = _
      rw [hb1, ih1, List.map_cons]

lemma getSnapshot_current {nowMs : Int} {args : SnapshotArgs} {s : Store}
    (hseason : seasonCurrentAt nowMs s) :
    getSnapshot nowMs args s = getSnapshotCore nowMs args s := by
  unfold getSnapshot
  rw [ensureActiveSeason_noop hseason]
  rfl

lemma syncPlayer_changed_clears (t : Int) (p : SyncPayload) (s : Store)
    (r : SyncResult)
    (hok : (syncPlayer t p s).result = Except.ok r)
    (hch : r.hasMeaningfulChange = true) :
    (syncPlayer t p s).store.overallCache = none
  ∧ (syncPlayer t p s).store.gameCacheMap = [] := by
  have hres : (syncPlayer t p s).result
      = (syncPlayerCore t p (ensureActiveSeason t s).2.1).result := rfl
  have hst : (syncPlayer t p s).store
      = (syncPlayerCore t p (ensureActiveSeason t s).2.1).store := rfl
  rw [hres] at hok
  rw [hst]
  by_cases huid : sanitizeId p.playerId "" = ""
  · rw [syncPlayerCore_bad t p _ huid] at hok
    exact absurd hok (by simp)
  · by_cases hchb : syncChanged t p (ensureActiveSeason t s).2.1
        (sanitizeId p.playerId "") = true
    · rw [syncPlayerCore_changed t p _ huid hchb]
      exact ⟨rfl, rfl⟩
    · rw [syncPlayerCore_nochange t p _ huid hchb] at hok
      simp only [Except.ok.injEq] at hok
      rw [← hok] at hch
      exact absurd hch (by simp)

lemma specOverallTop_eq (st : StoreState) (v : JSVal) :
    specOverallTop st v = (overallEntries st).take (clampTopLimit v).toNat := rfl

lemma specGameTop_eq (st : StoreState) (g : String) (v : JSVal) :
    specGameTop st g v = (gameEntries st g).take (clampTopLimit v).toNat := rfl

/-- C4 (amended).  Provided the stored season is current and every cache
tagged with the live revision was built from the live players map, a snapshot
read returns exactly the cache-free recomputation (overall top, my-rank
lookup, and every requested per-game ranking), leaves the state untouched and
coherent; a build finding a revision-matching cache returns that very cache
object with the store unchanged (cache reuse); and a sync reporting a
meaningful change clears both caches, so the next read rebuilds from the new
data.  The coherence hypothesis is needed because a no-change sync can move a
player `updatedAt` without bumping the revision. -/
theorem getSnapshot_cache_refinement (nowMs : Int) (args : SnapshotArgs) (s : Store)
    (hseason : seasonCurrentAt nowMs s)
    (hcoh : cacheCoherent s) :
    (getSnapshot nowMs args s).snap.overallTop = specOverallTop s.state args.topLimit
  ∧ (getSnapshot nowMs args s).snap.myOverall
      = (if sanitizeId args.playerId "" = "" then none
         else rankByPlayer (overallEntries s.state) (sanitizeId args.playerId ""))
  ∧ (getSnapshot nowMs args s).snap.games
      = (normalizeGameIds args.gameIds).map (fun g =>
          (g, GameView.mk (specGameTop s.state g args.topLimit)
            (if sanitizeId args.playerId "" = "" then none
             else rankByPlayer (gameEntries s.state g) (sanitizeId args.playerId ""))))
  ∧ (getSnapshot nowMs args s).store.state = s.state
  ∧ cacheCoherent (getSnapshot nowMs args s).store
  ∧ (∀ c, s.overallCache = some c → JSNum.seq c.revision s.state.revision = true →
      buildOverallCache s = (c, s))
  ∧ (∀ (g : String) (c : Cache), sanitizeId (JSVal.str g) "" = g → g ≠ "" →
      aGet s.gameCacheMap g = some c →
      JSNum.seq c.revision s.state.revision = true →
      buildGameCache g s = (c, s))
  ∧ (∀ (t2 : Int) (p : SyncPayload) (r : SyncResult),
      (syncPlayer t2 p s).result = Except.ok r → r.hasMeaningfulChange = true →
      (syncPlayer t2 p s).store.overallCache = none
      ∧ (syncPlayer t2 p s).store.gameCacheMap = []) := by
  obtain ⟨ho1, ho2, ho3, ho4⟩ := buildOverallCache_spec s hcoh.1
  have hcohG : ∀ g2 c, (g2, c) ∈ (buildOverallCache s).2.gameCacheMap →
      JSNum.seq c.revision (buildOverallCache s).2.state.revision = true →
      c.entries = gameEntries (buildOverallCache s).2.state g2 := by
    rw [ho2, ho3]
    exact hcoh.2
  obtain ⟨hs1, hs2, hs3, hs4⟩ := snapGames_spec (clampTopLimit args.topLimit).toNat
    (sanitizeId args.playerId "") (normalizeGameIds args.gameIds)
    (buildOverallCache s).2
    (fun g hg => normalizeGameIds_mem _ g hg) hcohG
  rw [ho2] at hs1 hs2 hs4
  rw [getSnapshot_current hseason]
  refine ⟨?_, ?_, ?_, ?_, ⟨?_, ?_⟩, ?_, ?_, ?_⟩
  · show (buildOverallCache s).1.entries.take (clampTopLimit args.topLimit).toNat
        = specOverallTop s.state args.topLimit
    rw [ho1, specOverallTop_eq]
  · show (if sanitizeId args.playerId "" = "" then none
        else rankByPlayer (buildOverallCache s).1.entries (sanitizeId args.playerId ""))
      = _
    rw [ho1]
  · show (snapGames (clampTopLimit args.topLimit).toNat (sanitizeId args.playerId "")
        (normalizeGameIds args.gameIds) (buildOverallCache s).2).1 = _
    rw [hs1]
    simp only [specGameTop_eq]
  · exact hs2
  · intro c hc hrev
    have hst : (getSnapshotCore nowMs args s).store.state = s.state := hs2
    have hc2 : (snapGames (clampTopLimit args.topLimit).toNat
        (sanitizeId args.playerId "") (normalizeGameIds args.gameIds)
        (buildOverallCache s).2).2.overallCache = some c := hc
    rw [hs3] at hc2
    rw [hst] at hrev ⊢
    exact ho4 c hc2 hrev
  · intro g2 c hmem hrev
    have hst : (getSnapshotCore nowMs args s).store.state = s.state := hs2
    have hmem2 : (g2, c) ∈ (snapGames (clampTopLimit args.topLimit).toNat
        (sanitizeId args.playerId "") (normalizeGameIds args.gameIds)
        (buildOverallCache s).2).2.gameCacheMap := hmem
    rw [hst] at hrev ⊢
    exact hs4 g2 c hmem2 hrev
  · exact fun c hc hrev => buildOverallCache_reuse s c hc hrev
  · exact fun g c hg hne hc hrev => buildGameCache_reuse g s c hg hne hc hrev
  · exact fun t2 p r hok hch => syncPlayer_changed_clears t2 p s r hok hch

/-- Witness for C4 (amended) on the coherent (cache-free) tied store. -/
theorem getSnapshot_cache_refinement_witness :
    seasonCurrentAt 0 tiedStore
  ∧ (getSnapshot 0 tiedArgs tiedStore).snap.overallTop
      = specOverallTop tiedStore.state tiedArgs.topLimit :=
  ⟨by decide,
    (getSnapshot_cache_refinement 0 tiedArgs tiedStore (by decide)
      ⟨fun c hc => Option.noConfusion hc,
       fun g c hc => absurd hc (List.not_mem_nil _)⟩).1⟩

/-- C4 (counterexample).  After a snapshot read built the caches at revision
1, a no-meaningful-change resubmission for p2 moves its `updatedAt` without
bumping the revision; the next read reuses the revision-matching cache, whose
tie-break order no longer matches the cache-free recomputation from the
current players map. -/
theorem getSnapshot_stale_tiebreak :
    seasonCurrentAt 2000 tiedStoreDrifted
  ∧ (getSnapshot 2000 tiedArgs tiedStoreDrifted).snap.overallTop
      ≠ specOverallTop tiedStoreDrifted.state tiedArgs.topLimit :=
  ⟨by decide, by decide⟩
